import Mathlib

/-!
Verification of the crypto-trader decision pipeline.

This file gives a shallow embedding, in Lean 4, of the parts of the
TypeScript sources that the verified claims are about:

* `PortfolioService` (portfolio accounting, position sizing, open/close,
  mark-to-market) from `src/services/portfolio.ts`;
* `TraderService` (trailing-stop state machine and exit-condition
  evaluation) from `src/services/trader.ts`;
* `StrategyService` (cooldown gate and the first-match-wins detector
  chain) from `src/services/strategy.ts`;
* `BinanceService` (closed-candle dedup on the push and poll paths,
  reconnect bookkeeping) from `src/services/binance.ts`;
* `LLMFilterService.evaluateSignal` error handling from
  `src/services/llm-filter.ts`.

Modelling conventions: JavaScript `number` is modelled by `ℚ` (exact
rational arithmetic standing in for the reals; the source performs no
operation outside field arithmetic and comparisons).  JS `Map`s are
modelled by insertion-ordered association lists or by functions, as
noted at each definition.  Wall-clock timestamps (`Date.now()`) and
`randomUUID()` identifiers are nondeterministic inputs; they are either
passed in as explicit parameters or dropped when no claim mentions them
(each structure notes the dropped fields).  Free-text `reason` strings,
logging and persistence calls are side effects with no bearing on the
claims and are omitted.
-/

/-- Direction of an open position (`'LONG' | 'SHORT'` in `types/index.ts`). -/
inductive PosDirection
  | LONG
  | SHORT
deriving DecidableEq

/-- Direction of a trade signal (`SignalDirection` in `types/index.ts`). -/
inductive SignalDirection
  | LONG
  | SHORT
  | NEUTRAL
deriving DecidableEq

/-- `SignalStrength` from `types/index.ts`. -/
inductive SignalStrength
  | weak
  | moderate
  | strong
deriving DecidableEq

/-- `TradeExitReason` from `types/index.ts`. -/
inductive TradeExitReason
  | take_profit
  | stop_loss
  | trailing_stop
  | structure_break
  | manual
  | regime_change
deriving DecidableEq

/-- `TradeOutcome` from `types/index.ts`. -/
inductive TradeOutcome
  | win
  | loss
  | breakeven
deriving DecidableEq

/-- `MarketDecision` from `types/index.ts`. -/
inductive MarketDecision
  | TRADE_ALLOWED
  | WAIT
  | DANGER
deriving DecidableEq

/-- `TradingConfig` from `types/index.ts`.  The `symbols` and `interval`
fields are not consumed by any embedded operation and are dropped. -/
structure TradingConfig where
  initialCapital : ℚ
  maxPositionPercent : ℚ
  maxOpenPositions : Nat
  commissionRate : ℚ
  cooldownCandles : Nat
  riskPerTradePercent : ℚ
  trailingStopActivation : ℚ
  trailingStopDistance : ℚ
deriving DecidableEq

/-- `TradeSignal` from `types/index.ts`.  The `id` (UUID), free-text
`reason` and the `indicators`/`regime` provenance snapshots are dropped:
no embedded operation reads them.  `riskRewardRatio` is shortened to
`riskReward`. -/
structure TradeSignal where
  symbol : String
  timestamp : Nat
  direction : SignalDirection
  strength : SignalStrength
  entryPrice : ℚ
  stopLoss : ℚ
  takeProfit : ℚ
  riskReward : ℚ
deriving DecidableEq

/-- `Position` from `types/index.ts`.  `id` is a `Nat` standing in for the
UUID (supplied by the caller of `openPosition`, as `randomUUID()` is in
the source); `entryTime` (`Date.now()`) and `signalId` are dropped. -/
structure Position where
  id : Nat
  symbol : String
  direction : PosDirection
  entryPrice : ℚ
  currentPrice : ℚ
  quantity : ℚ
  stopLoss : ℚ
  takeProfit : ℚ
  unrealizedPnL : ℚ
  unrealizedPnLPercent : ℚ
deriving DecidableEq

/-- `ClosedTrade` from `types/index.ts`.  `entryTime`/`exitTime`
(wall-clock), `signalId` and the placeholder `llmApproval` record are
dropped. -/
structure ClosedTrade where
  id : Nat
  symbol : String
  direction : PosDirection
  entryPrice : ℚ
  exitPrice : ℚ
  quantity : ℚ
  pnl : ℚ
  pnlPercent : ℚ
  commission : ℚ
  outcome : TradeOutcome
  exitReason : TradeExitReason
deriving DecidableEq

/-- Mutable state of `PortfolioService` (`portfolio.ts`).  The JS
`Map<string, Position>` keeps insertion order, so it is modelled as a
list of positions in insertion order, looked up by `id`. -/
structure PortfolioService where
  config : TradingConfig
  totalEquity : ℚ
  availableCash : ℚ
  positions : List Position
  closedTrades : List ClosedTrade
deriving DecidableEq

/-- The `PortfolioService` constructor: equity and cash start at
`config.initialCapital`, no positions, no closed trades. -/
def mkPortfolio (config : TradingConfig) : PortfolioService :=
  { config
    totalEquity := config.initialCapital
    availableCash := config.initialCapital
    positions := []
    closedTrades := [] }

/-- `PortfolioService.getPositionsValue`:
`reduce((sum, pos) => sum + pos.quantity * pos.currentPrice, 0)`. -/
def getPositionsValue (s : PortfolioService) : ℚ :=
  s.positions.foldl (fun sum pos => sum + pos.quantity * pos.currentPrice) 0

/-- `PortfolioService.canOpenPosition`: false when the open-position count
has reached `maxOpenPositions` or available cash is below 10% of total
equity. -/
def canOpenPosition (s : PortfolioService) : Bool :=
  if s.positions.length ≥ s.config.maxOpenPositions then false
  else if s.availableCash < s.totalEquity * (1 / 10) then false
  else true

/-- `PortfolioService.calculatePositionSize`.  The unused `direction`
parameter of the source is dropped.  `quantity = riskAmount /
stopDistance`, capped at `maxPositionValue / entryPrice`; zero when the
stop distance is zero. -/
def calculatePositionSize (s : PortfolioService) (entryPrice stopLoss : ℚ) : ℚ :=
  let riskAmount := s.totalEquity * s.config.riskPerTradePercent
  let stopDistance := |entryPrice - stopLoss|
  if stopDistance = 0 then 0
  else
    let quantity := riskAmount / stopDistance
    let maxPositionValue := s.totalEquity * s.config.maxPositionPercent
    let maxQuantity := maxPositionValue / entryPrice
    if quantity > maxQuantity then maxQuantity else quantity

/-- `PortfolioService.openPosition`.  `newId` stands in for
`randomUUID()`.  Returns the opened position (or `none` on rejection)
together with the updated service state.  Note the source updates
`positions` and `availableCash` but not `totalEquity`. -/
def openPosition (s : PortfolioService) (signal : TradeSignal) (currentPrice : ℚ)
    (newId : Nat) : Option Position × PortfolioService :=
  if ¬ canOpenPosition s then (none, s)
  else if signal.direction = SignalDirection.NEUTRAL then (none, s)
  else
    let positionSize := calculatePositionSize s signal.entryPrice signal.stopLoss
    if positionSize = 0 then (none, s)
    else
      let positionValue := positionSize * currentPrice
      let entryCommission := positionValue * s.config.commissionRate
      let totalCost := positionValue + entryCommission
      if totalCost > s.availableCash then (none, s)
      else
        let position : Position :=
          { id := newId
            symbol := signal.symbol
            direction :=
              if signal.direction = SignalDirection.LONG then PosDirection.LONG
              else PosDirection.SHORT
            entryPrice := currentPrice
            currentPrice := currentPrice
            quantity := positionSize
            stopLoss := signal.stopLoss
            takeProfit := signal.takeProfit
            unrealizedPnL := -entryCommission
            unrealizedPnLPercent := -entryCommission / positionValue * 100 }
        (some position,
          { s with
              positions := s.positions ++ [position]
              availableCash := s.availableCash - totalCost })

/-- `PortfolioService.closePosition`.  Looks the position up by id,
computes directional gross P&L, subtracts entry and exit commissions,
classifies the outcome by the sign of net P&L, credits cash with the
exit value minus the exit commission, recomputes `totalEquity`, removes
the position and appends the closed-trade record. -/
def closePosition (s : PortfolioService) (positionId : Nat) (exitPrice : ℚ)
    (exitReason : TradeExitReason) : Option ClosedTrade × PortfolioService :=
  match s.positions.find? (fun p => p.id = positionId) with
  | none => (none, s)
  | some position =>
    let positionValue := position.quantity * position.entryPrice
    let exitValue := position.quantity * exitPrice
    let grossPnL :=
      if position.direction = PosDirection.LONG then exitValue - positionValue
      else positionValue - exitValue
    let entryCommission := positionValue * s.config.commissionRate
    let exitCommission := exitValue * s.config.commissionRate
    let totalCommission := entryCommission + exitCommission
    let netPnL := grossPnL - totalCommission
    let pnlPercent := netPnL / positionValue * 100
    let outcome :=
      if netPnL > 0 then TradeOutcome.win
      else if netPnL < 0 then TradeOutcome.loss
      else TradeOutcome.breakeven
    let closedTrade : ClosedTrade :=
      { id := position.id
        symbol := position.symbol
        direction := position.direction
        entryPrice := position.entryPrice
        exitPrice := exitPrice
        quantity := position.quantity
        pnl := netPnL
        pnlPercent := pnlPercent
        commission := totalCommission
        outcome := outcome
        exitReason := exitReason }
    let s1 : PortfolioService :=
      { s with
          positions := s.positions.filter (fun p => p.id ≠ positionId)
          availableCash := s.availableCash + (exitValue - exitCommission) }
    (some closedTrade,
      { s1 with
          totalEquity := s1.availableCash + getPositionsValue s1
          closedTrades := s.closedTrades ++ [closedTrade] })

/-- Price lookup in a `Record<string, number>`, modelled as an ordered
association list.  Mirrors `prices[position.symbol]`. -/
def lookupPrice (prices : List (String × ℚ)) (symbol : String) : Option ℚ :=
  match prices with
  | [] => none
  | (sym, price) :: rest => if sym = symbol then some price else lookupPrice rest symbol

/-- Body of the `updatePositions` loop for one position.  The source
guard `if (!currentPrice) continue` skips both a missing and a zero
(falsy) price. -/
def updateOnePosition (commissionRate : ℚ) (prices : List (String × ℚ))
    (position : Position) : Position :=
  match lookupPrice prices position.symbol with
  | none => position
  | some currentPrice =>
    if currentPrice = 0 then position
    else
      let positionValue := position.quantity * position.entryPrice
      let currentValue := position.quantity * currentPrice
      let grossPnL :=
        if position.direction = PosDirection.LONG then currentValue - positionValue
        else positionValue - currentValue
      let entryCommission := positionValue * commissionRate
      { position with
          currentPrice := currentPrice
          unrealizedPnL := grossPnL - entryCommission
          unrealizedPnLPercent := (grossPnL - entryCommission) / positionValue * 100 }

/-- `PortfolioService.updatePositions` (mark-to-market): refreshes every
position with a known, non-falsy price, then recomputes
`totalEquity = availableCash + getPositionsValue()`. -/
def updatePositions (s : PortfolioService) (prices : List (String × ℚ)) :
    PortfolioService :=
  let s1 := { s with positions := s.positions.map (updateOnePosition s.config.commissionRate prices) }
  { s1 with totalEquity := s1.availableCash + getPositionsValue s1 }

/-- One mutation of the portfolio, for stating sequence-level
invariants over `openPosition` / `closePosition` / `updatePositions`. -/
inductive PortfolioOp
  | openOp (signal : TradeSignal) (currentPrice : ℚ) (newId : Nat)
  | closeOp (positionId : Nat) (exitPrice : ℚ) (exitReason : TradeExitReason)
  | updateOp (prices : List (String × ℚ))

/-- Apply one mutation, keeping only the resulting service state. -/
def applyOp (s : PortfolioService) : PortfolioOp → PortfolioService
  | PortfolioOp.openOp signal currentPrice newId => (openPosition s signal currentPrice newId).2
  | PortfolioOp.closeOp positionId exitPrice exitReason =>
      (closePosition s positionId exitPrice exitReason).2
  | PortfolioOp.updateOp prices => updatePositions s prices

/-- Run a sequence of portfolio mutations. -/
def runOps (s : PortfolioService) (ops : List PortfolioOp) : PortfolioService :=
  ops.foldl applyOp s

/-- The spec's portfolio identity: cash plus the marked value of the
open positions equals recorded total equity. -/
def PortfolioIdentity (s : PortfolioService) : Prop :=
  s.availableCash + getPositionsValue s = s.totalEquity

/-- `TrailingStopState` from `trader.ts`: activation flag, activation
price, extreme favorable price seen (highest for LONG, lowest for
SHORT), and the current trailing stop level. -/
structure TrailingStopState where
  isActive : Bool
  activationPrice : ℚ
  highestPrice : ℚ
  lowestPrice : ℚ
  currentStop : ℚ
deriving DecidableEq

/-- `TraderService.updateTrailingStop` (`trader.ts`) as a pure step on one
position's trailing-stop state: computes the unrealized profit fraction,
activates the trailing stop once it exceeds
`config.trailingStopActivation`, then — while active — tracks the extreme
favorable price and adopts the candidate stop
`extreme * (1 ∓ trailingStopDistance)` only when it improves on the
existing stop. -/
def updateTrailingStop (config : TradingConfig) (position : Position)
    (currentPrice : ℚ) (trailingState : TrailingStopState) : TrailingStopState :=
  let positionValue := position.quantity * position.entryPrice
  let currentValue := position.quantity * currentPrice
  let grossPnL :=
    if position.direction = PosDirection.LONG then currentValue - positionValue
    else positionValue - currentValue
  let profitPercent := grossPnL / positionValue
  let ts1 :=
    if ¬ trailingState.isActive ∧ profitPercent > config.trailingStopActivation then
      { trailingState with isActive := true, activationPrice := currentPrice }
    else trailingState
  if ts1.isActive then
    if position.direction = PosDirection.LONG then
      if currentPrice > ts1.highestPrice then
        let newStop := currentPrice * (1 - config.trailingStopDistance)
        if newStop > ts1.currentStop then
          { ts1 with highestPrice := currentPrice, currentStop := newStop }
        else { ts1 with highestPrice := currentPrice }
      else ts1
    else
      if currentPrice < ts1.lowestPrice then
        let newStop := currentPrice * (1 + config.trailingStopDistance)
        if newStop < ts1.currentStop then
          { ts1 with lowestPrice := currentPrice, currentStop := newStop }
        else { ts1 with lowestPrice := currentPrice }
      else ts1
  else ts1

/-- Fold `updateTrailingStop` over a sequence of observed prices, as
successive `checkExits` ticks do for a position that stays open. -/
def runTrailingUpdates (config : TradingConfig) (position : Position)
    (trailingState : TrailingStopState) (prices : List ℚ) : TrailingStopState :=
  prices.foldl (fun ts price => updateTrailingStop config position price ts) trailingState

/-- `TraderService.checkExitConditions` (`trader.ts`): fixed evaluation
order take-profit, then trailing stop (only if active), then static
stop-loss; the first hit determines the exit reason. -/
def checkExitConditions (position : Position) (currentPrice : ℚ)
    (trailingState : TrailingStopState) : Option TradeExitReason :=
  if position.direction = PosDirection.LONG then
    if currentPrice ≥ position.takeProfit then some TradeExitReason.take_profit
    else if trailingState.isActive ∧ currentPrice ≤ trailingState.currentStop then
      some TradeExitReason.trailing_stop
    else if currentPrice ≤ position.stopLoss then some TradeExitReason.stop_loss
    else none
  else
    if currentPrice ≤ position.takeProfit then some TradeExitReason.take_profit
    else if trailingState.isActive ∧ currentPrice ≥ trailingState.currentStop then
      some TradeExitReason.trailing_stop
    else if currentPrice ≥ position.stopLoss then some TradeExitReason.stop_loss
    else none

/-- `Candle` from `types/index.ts`.  The JS fields `open`/`high`/`low`/
`close` are renamed `openPrice`/`highPrice`/`lowPrice`/`closePrice`
(`open` is a Lean keyword); all other fields keep their names. -/
structure Candle where
  symbol : String
  interval : String
  openTime : Nat
  closeTime : Nat
  openPrice : ℚ
  highPrice : ℚ
  lowPrice : ℚ
  closePrice : ℚ
  volume : ℚ
  isClosed : Bool
deriving DecidableEq

/-- Placeholder candle used as the out-of-range default of list indexing.
Every source access is guarded by a length check, so guarded code never
reads it. -/
def dummyCandle : Candle :=
  { symbol := ""
    interval := ""
    openTime := 0
    closeTime := 0
    openPrice := 0
    highPrice := 0
    lowPrice := 0
    closePrice := 0
    volume := 0
    isClosed := false }

/-- `candles[i]` with the dummy default for out-of-range access. -/
def candleAt (candles : List Candle) (i : Nat) : Candle :=
  candles.getD i dummyCandle

/-- `candles[candles.length - 1]`. -/
def lastCandle (candles : List Candle) : Candle :=
  candleAt candles (candles.length - 1)

/-- `Math.max(...)` over a price list (sources apply it to non-empty
slices only). -/
def maxList (l : List ℚ) : ℚ :=
  match l with
  | [] => 0
  | x :: xs => xs.foldl max x

/-- `Math.min(...)` over a price list (sources apply it to non-empty
slices only). -/
def minList (l : List ℚ) : ℚ :=
  match l with
  | [] => 0
  | x :: xs => xs.foldl min x

/-- `Indicators` from `types/index.ts` (`symbol`/`timestamp` metadata
dropped; only the numeric snapshot is consumed by the strategy bank). -/
structure Indicators where
  ema9 : ℚ
  ema21 : ℚ
  ema50 : ℚ
  rsi14 : ℚ
  atr14 : ℚ
  atrPercent : ℚ
  adx14 : ℚ
  volumeSma20 : ℚ
  volumeRatio : ℚ
  lastSwingHigh : ℚ
  lastSwingLow : ℚ
deriving DecidableEq

/-- `RegimeState` reduced to the one field `StrategyService` consumes:
the trade-permission decision. -/
structure RegimeState where
  decision : MarketDecision
deriving DecidableEq

/-- `StrategyService.calculateStrength` (`strategy.ts`). -/
def calculateStrength (indicators : Indicators) : SignalStrength :=
  let emasAligned :=
    (indicators.ema9 > indicators.ema21 ∧ indicators.ema21 > indicators.ema50) ∨
    (indicators.ema9 < indicators.ema21 ∧ indicators.ema21 < indicators.ema50)
  if indicators.adx14 > 25 ∧ indicators.volumeRatio > 3 / 2 ∧ emasAligned then
    SignalStrength.strong
  else if indicators.adx14 > 15 ∨ indicators.volumeRatio > 6 / 5 then SignalStrength.moderate
  else SignalStrength.weak

/-- `StrategyService.createSignal` (`strategy.ts`): entry price is the
latest close, timestamp the latest close time; `randomUUID()` id and the
free-text reason are dropped. -/
def createSignal (symbol : String) (candles : List Candle) (indicators : Indicators)
    (direction : SignalDirection) (stopLoss takeProfit rr : ℚ) : TradeSignal :=
  { symbol
    timestamp := (lastCandle candles).closeTime
    direction
    strength := calculateStrength indicators
    entryPrice := (lastCandle candles).closePrice
    stopLoss
    takeProfit
    riskReward := rr }

/-- STRATEGY 1 `checkEMACrossover`: EMA9 above/below EMA21 with the
previous close on the other side of EMA21. -/
def checkEMACrossover (symbol : String) (candles : List Candle)
    (indicators : Indicators) : Option TradeSignal :=
  if candles.length < 3 then none
  else
    let currentPrice := (lastCandle candles).closePrice
    let prevClose := (candleAt candles (candles.length - 2)).closePrice
    if indicators.ema9 > indicators.ema21 ∧ prevClose < indicators.ema21 ∧
        currentPrice > indicators.ema21 then
      let stopLoss := currentPrice - indicators.atr14 * (3 / 2)
      let takeProfit := currentPrice + indicators.atr14 * 3
      let rr := (takeProfit - currentPrice) / (currentPrice - stopLoss)
      some (createSignal symbol candles indicators SignalDirection.LONG stopLoss takeProfit rr)
    else if indicators.ema9 < indicators.ema21 ∧ prevClose > indicators.ema21 ∧
        currentPrice < indicators.ema21 then
      let stopLoss := currentPrice + indicators.atr14 * (3 / 2)
      let takeProfit := currentPrice - indicators.atr14 * 3
      let rr := (currentPrice - takeProfit) / (stopLoss - currentPrice)
      some (createSignal symbol candles indicators SignalDirection.SHORT stopLoss takeProfit rr)
    else none

/-- STRATEGY 2 `checkRSIReversal`: RSI below 48 fires LONG, above 52
fires SHORT. -/
def checkRSIReversal (symbol : String) (candles : List Candle)
    (indicators : Indicators) : Option TradeSignal :=
  let currentPrice := (lastCandle candles).closePrice
  if indicators.rsi14 < 48 then
    let stopLoss := currentPrice - indicators.atr14 * (3 / 2)
    let takeProfit := currentPrice + indicators.atr14 * (5 / 2)
    let rr := (takeProfit - currentPrice) / (currentPrice - stopLoss)
    some (createSignal symbol candles indicators SignalDirection.LONG stopLoss takeProfit rr)
  else if indicators.rsi14 > 52 then
    let stopLoss := currentPrice + indicators.atr14 * (3 / 2)
    let takeProfit := currentPrice - indicators.atr14 * (5 / 2)
    let rr := (currentPrice - takeProfit) / (stopLoss - currentPrice)
    some (createSignal symbol candles indicators SignalDirection.SHORT stopLoss takeProfit rr)
  else none

/-- STRATEGY 3 `checkMomentumBreakout`: strong-bodied candle with
adequate volume in the direction of EMA9, subject to a 0.5
risk-to-reward floor. -/
def checkMomentumBreakout (symbol : String) (candles : List Candle)
    (indicators : Indicators) : Option TradeSignal :=
  if candles.length < 5 then none
  else
    let current := lastCandle candles
    if indicators.volumeRatio < 4 / 5 then none
    else
      let bodySize := |current.closePrice - current.openPrice|
      let candleRange := current.highPrice - current.lowPrice
      let bodyRatio := if candleRange > 0 then bodySize / candleRange else 0
      if bodyRatio < 3 / 10 then none
      else
        let bull :=
          if current.closePrice > current.openPrice ∧ current.closePrice > indicators.ema9 then
            let stopLoss := current.lowPrice - indicators.atr14 * (1 / 2)
            let takeProfit := current.closePrice + indicators.atr14 * 2
            let rr := (takeProfit - current.closePrice) / (current.closePrice - stopLoss)
            if rr ≥ 1 / 2 then
              some (createSignal symbol candles indicators SignalDirection.LONG stopLoss takeProfit rr)
            else none
          else none
        let bear :=
          if current.closePrice < current.openPrice ∧ current.closePrice < indicators.ema9 then
            let stopLoss := current.highPrice + indicators.atr14 * (1 / 2)
            let takeProfit := current.closePrice - indicators.atr14 * 2
            let rr := (current.closePrice - takeProfit) / (stopLoss - current.closePrice)
            if rr ≥ 1 / 2 then
              some (createSignal symbol candles indicators SignalDirection.SHORT stopLoss takeProfit rr)
            else none
          else none
        bull <|> bear

/-- STRATEGY 4 `checkStructureBreak`: a higher high (lower low) in the
last 10 candles relative to the 10 before, confirmed by price vs EMA21
and non-extreme RSI, subject to a 0.5 risk-to-reward floor. -/
def checkStructureBreak (symbol : String) (candles : List Candle)
    (indicators : Indicators) : Option TradeSignal :=
  if candles.length < 20 then none
  else
    let currentPrice := (lastCandle candles).closePrice
    let recent := candles.drop (candles.length - 10)
    let previous := (candles.drop (candles.length - 20)).take 10
    let recentHigh := maxList (recent.map (fun c => c.highPrice))
    let recentLow := minList (recent.map (fun c => c.lowPrice))
    let prevHigh := maxList (previous.map (fun c => c.highPrice))
    let prevLow := minList (previous.map (fun c => c.lowPrice))
    let bull :=
      if recentHigh > prevHigh ∧ currentPrice > indicators.ema21 ∧ indicators.rsi14 < 72 then
        let stopLoss := recentLow - indicators.atr14 * (3 / 10)
        let takeProfit := currentPrice + indicators.atr14 * (5 / 2)
        let rr := (takeProfit - currentPrice) / (currentPrice - stopLoss)
        if rr ≥ 1 / 2 then
          some (createSignal symbol candles indicators SignalDirection.LONG stopLoss takeProfit rr)
        else none
      else none
    let bear :=
      if recentLow < prevLow ∧ currentPrice < indicators.ema21 ∧ indicators.rsi14 > 28 then
        let stopLoss := recentHigh + indicators.atr14 * (3 / 10)
        let takeProfit := currentPrice - indicators.atr14 * (5 / 2)
        let rr := (currentPrice - takeProfit) / (stopLoss - currentPrice)
        if rr ≥ 1 / 2 then
          some (createSignal symbol candles indicators SignalDirection.SHORT stopLoss takeProfit rr)
        else none
      else none
    bull <|> bear

/-- STRATEGY 5 `checkEMABounce`: price near EMA21 closing back
across/near it in a non-extreme RSI range, subject to a 0.5
risk-to-reward floor. -/
def checkEMABounce (symbol : String) (candles : List Candle)
    (indicators : Indicators) : Option TradeSignal :=
  if candles.length < 5 then none
  else
    let current := lastCandle candles
    let prev := candleAt candles (candles.length - 2)
    if indicators.rsi14 < 20 ∨ indicators.rsi14 > 80 then none
    else
      let distanceToEMA := |current.closePrice - indicators.ema21|
      let proximityThreshold := indicators.atr14 * (3 / 2)
      if distanceToEMA > proximityThreshold then none
      else
        let bull :=
          if prev.closePrice < indicators.ema21 ∧
              current.closePrice ≥ indicators.ema21 * (999 / 1000) then
            let stopLoss := current.lowPrice - indicators.atr14 * (4 / 5)
            let takeProfit := current.closePrice + indicators.atr14 * (9 / 5)
            let rr := (takeProfit - current.closePrice) / (current.closePrice - stopLoss)
            if rr ≥ 1 / 2 then
              some (createSignal symbol candles indicators SignalDirection.LONG stopLoss takeProfit rr)
            else none
          else none
        let bear :=
          if prev.closePrice > indicators.ema21 ∧
              current.closePrice ≤ indicators.ema21 * (1001 / 1000) then
            let stopLoss := current.highPrice + indicators.atr14 * (4 / 5)
            let takeProfit := current.closePrice - indicators.atr14 * (9 / 5)
            let rr := (current.closePrice - takeProfit) / (stopLoss - current.closePrice)
            if rr ≥ 1 / 2 then
              some (createSignal symbol candles indicators SignalDirection.SHORT stopLoss takeProfit rr)
            else none
          else none
        bull <|> bear

/-- STRATEGY 6 `checkMeanReversion`: price at least 1 ATR from EMA50 with
RSI and short-term price action confirming a turn; the target is a 50%
reversion, subject to a 0.5 risk-to-reward floor. -/
def checkMeanReversion (symbol : String) (candles : List Candle)
    (indicators : Indicators) : Option TradeSignal :=
  if candles.length < 10 then none
  else
    let current := lastCandle candles
    let deviation := current.closePrice - indicators.ema50
    let deviationATR := |deviation| / indicators.atr14
    if deviationATR < 1 then none
    else
      let bull :=
        if deviation < 0 ∧ indicators.rsi14 < 45 ∧
            current.closePrice > (candleAt candles (candles.length - 2)).closePrice then
          let stopLoss := current.closePrice - indicators.atr14 * (6 / 5)
          let targetDistance := |deviation| * (1 / 2)
          let takeProfit := current.closePrice + targetDistance
          let rr := targetDistance / (current.closePrice - stopLoss)
          if rr ≥ 1 / 2 then
            some (createSignal symbol candles indicators SignalDirection.LONG stopLoss takeProfit rr)
          else none
        else none
      let bear :=
        if deviation > 0 ∧ indicators.rsi14 > 55 ∧
            current.closePrice < (candleAt candles (candles.length - 2)).closePrice then
          let stopLoss := current.closePrice + indicators.atr14 * (6 / 5)
          let targetDistance := |deviation| * (1 / 2)
          let takeProfit := current.closePrice - targetDistance
          let rr := targetDistance / (stopLoss - current.closePrice)
          if rr ≥ 1 / 2 then
            some (createSignal symbol candles indicators SignalDirection.SHORT stopLoss takeProfit rr)
          else none
        else none
      bull <|> bear

/-- STRATEGY 7 `checkCandleTrend`: two consecutive directional candles or
a recovery/rejection pattern, subject to a 0.5 risk-to-reward floor. -/
def checkCandleTrend (symbol : String) (candles : List Candle)
    (indicators : Indicators) : Option TradeSignal :=
  if candles.length < 3 then none
  else
    let current := lastCandle candles
    let prev := candleAt candles (candles.length - 2)
    let prev2 := candleAt candles (candles.length - 3)
    let bullish :=
      (current.closePrice > current.openPrice ∧ prev.closePrice > prev.openPrice) ∨
      (current.closePrice > prev.closePrice ∧ prev.closePrice < prev2.closePrice)
    let bull :=
      if bullish ∧ indicators.rsi14 < 70 then
        let stopLoss := min current.lowPrice prev.lowPrice - indicators.atr14 * (3 / 10)
        let takeProfit := current.closePrice + indicators.atr14 * (3 / 2)
        let rr := (takeProfit - current.closePrice) / (current.closePrice - stopLoss)
        if rr ≥ 1 / 2 then
          some (createSignal symbol candles indicators SignalDirection.LONG stopLoss takeProfit rr)
        else none
      else none
    let bearish :=
      (current.closePrice < current.openPrice ∧ prev.closePrice < prev.openPrice) ∨
      (current.closePrice < prev.closePrice ∧ prev.closePrice > prev2.closePrice)
    let bear :=
      if bearish ∧ indicators.rsi14 > 30 then
        let stopLoss := max current.highPrice prev.highPrice + indicators.atr14 * (3 / 10)
        let takeProfit := current.closePrice - indicators.atr14 * (3 / 2)
        let rr := (current.closePrice - takeProfit) / (stopLoss - current.closePrice)
        if rr ≥ 1 / 2 then
          some (createSignal symbol candles indicators SignalDirection.SHORT stopLoss takeProfit rr)
        else none
      else none
    bull <|> bear

/-- STRATEGY 8 `checkQuickScalp`: any non-doji directional candle at or
near EMA9, subject to a 0.4 risk-to-reward floor. -/
def checkQuickScalp (symbol : String) (candles : List Candle)
    (indicators : Indicators) : Option TradeSignal :=
  if candles.length < 2 then none
  else
    let current := lastCandle candles
    let bodySize := |current.closePrice - current.openPrice|
    let minBody := indicators.atr14 * (3 / 20)
    if bodySize < minBody then none
    else
      let bull :=
        if current.closePrice > current.openPrice ∧
            current.closePrice ≥ indicators.ema9 * (998 / 1000) then
          let stopLoss := current.lowPrice - indicators.atr14 * (3 / 10)
          let takeProfit := current.closePrice + indicators.atr14 * 1
          let rr := (takeProfit - current.closePrice) / (current.closePrice - stopLoss)
          if rr ≥ 2 / 5 then
            some (createSignal symbol candles indicators SignalDirection.LONG stopLoss takeProfit rr)
          else none
        else none
      let bear :=
        if current.closePrice < current.openPrice ∧
            current.closePrice ≤ indicators.ema9 * (1002 / 1000) then
          let stopLoss := current.highPrice + indicators.atr14 * (3 / 10)
          let takeProfit := current.closePrice - indicators.atr14 * 1
          let rr := (current.closePrice - takeProfit) / (stopLoss - current.closePrice)
          if rr ≥ 2 / 5 then
            some (createSignal symbol candles indicators SignalDirection.SHORT stopLoss takeProfit rr)
          else none
        else none
      bull <|> bear

/-- Mutable state of `StrategyService` (`strategy.ts`): the config and
the per-symbol open time of the last signal (`lastSignalTime`). -/
structure StrategyService where
  config : TradingConfig
  lastSignalTime : List (String × Nat)
deriving DecidableEq

/-- Insert-or-replace in an ordered association list (JS
`Map.set` semantics). -/
def setAssoc (m : List (String × Nat)) (key : String) (val : Nat) : List (String × Nat) :=
  match m with
  | [] => [(key, val)]
  | (k, v) :: rest => if k = key then (k, val) :: rest else (k, v) :: setAssoc rest key val

/-- Ordered association-list lookup (JS `Map.get` semantics). -/
def getAssoc (m : List (String × Nat)) (key : String) : Option Nat :=
  match m with
  | [] => none
  | (k, v) :: rest => if k = key then some v else getAssoc rest key

/-- `StrategyService.canTrade` (`strategy.ts`), verbatim: the body is
`// Zero cooldown - always ready to trade; return true;` — it reads
neither `lastSignalTime` nor `config.cooldownCandles`. -/
def canTrade (s : StrategyService) (symbol : String) (candles : List Candle) : Bool :=
  true

/-- `StrategyService.updateLastSignalTime`: records the open time of the
latest candle for the symbol. -/
def updateLastSignalTime (s : StrategyService) (symbol : String)
    (candles : List Candle) : StrategyService :=
  { s with lastSignalTime := setAssoc s.lastSignalTime symbol (lastCandle candles).openTime }

/-- `StrategyService.evaluate` (`strategy.ts`): the DANGER regime gate and
the `canTrade` cooldown gate are checked before the detector chain runs;
the detectors run in fixed priority order with the first non-null result
winning, and a produced signal updates `lastSignalTime`. -/
def evaluate (s : StrategyService) (symbol : String) (candles : List Candle)
    (indicators : Indicators) (regime : RegimeState) :
    Option TradeSignal × StrategyService :=
  if regime.decision = MarketDecision.DANGER then (none, s)
  else if ¬ canTrade s symbol candles then (none, s)
  else
    let signal :=
      checkEMACrossover symbol candles indicators <|>
      checkRSIReversal symbol candles indicators <|>
      checkMomentumBreakout symbol candles indicators <|>
      checkStructureBreak symbol candles indicators <|>
      checkEMABounce symbol candles indicators <|>
      checkMeanReversion symbol candles indicators <|>
      checkCandleTrend symbol candles indicators <|>
      checkQuickScalp symbol candles indicators
    match signal with
    | some sig => (some sig, updateLastSignalTime s symbol candles)
    | none => (none, s)

/-- `BinanceService.bufferSize` (`binance.ts`). -/
def bufferSize : Nat := 200

/-- `BinanceService.maxReconnectAttempts` (`binance.ts`). -/
def maxReconnectAttempts : Nat := 10

/-- `BinanceService.baseReconnectDelay`, in milliseconds (`binance.ts`). -/
def baseReconnectDelay : Nat := 1000

/-- State of `BinanceService` (`binance.ts`).  `candleBuffers` models the
JS `Map<string, Candle[]>` as a function with `[]` as the default for
absent symbols (`this.candleBuffers.get(symbol) || []`); `dispatched` is
the history of candles handed to the registered `candleCallbacks`, in
order (one entry = one dispatch of a closed-candle event to the
handlers); `isRunning`, `reconnectAttempts` and `pollingActive` (whether
`pollingInterval` is still scheduled) are the connection bookkeeping
fields. -/
structure BinanceService where
  candleBuffers : String → List Candle
  dispatched : List Candle
  isRunning : Bool
  reconnectAttempts : Nat
  pollingActive : Bool

/-- Append a closed candle and trim the ring buffer:
`buffer.push(candle); if (buffer.length > bufferSize) buffer.shift();`. -/
def pushTrim (buffer : List Candle) (candle : Candle) : List Candle :=
  let buffer := buffer ++ [candle]
  if buffer.length > bufferSize then buffer.drop 1 else buffer

/-- Store a buffer back into the per-symbol map. -/
def setBuffer (st : BinanceService) (symbol : String) (buffer : List Candle) :
    BinanceService :=
  { st with candleBuffers := fun sym => if sym = symbol then buffer else st.candleBuffers sym }

/-- `BinanceService.handleKlineMessage` (the WebSocket push path) for an
already-normalized candle: a closed candle is appended and dispatched
only when no candle with the same `openTime` is in the symbol's buffer;
an in-progress candle replaces the last buffer slot when it has the same
`openTime`, otherwise it is pushed. -/
def handleKlineMessage (st : BinanceService) (candle : Candle) : BinanceService :=
  let buffer := st.candleBuffers candle.symbol
  if candle.isClosed then
    if (buffer.findIdx? (fun c => c.openTime = candle.openTime)).isNone then
      let st1 := setBuffer st candle.symbol (pushTrim buffer candle)
      { st1 with dispatched := st1.dispatched ++ [candle] }
    else st
  else
    match buffer.getLast? with
    | some last =>
      if last.openTime = candle.openTime then
        setBuffer st candle.symbol (buffer.dropLast ++ [candle])
      else setBuffer st candle.symbol (pushTrim buffer candle)
    | none => setBuffer st candle.symbol (pushTrim buffer candle)

/-- The poll path (`startPollingFallback` loop body) for one fetched
candle: a closed candle is appended and dispatched only when
`!buffer.some(c => c.openTime === candle.openTime)`; an in-progress
candle replaces the last slot on matching `openTime`, or is pushed when
no candle with its `openTime` exists. -/
def pollHandleCandle (st : BinanceService) (candle : Candle) : BinanceService :=
  let buffer := st.candleBuffers candle.symbol
  if candle.isClosed then
    if ¬ buffer.any (fun c => c.openTime = candle.openTime) then
      let st1 := setBuffer st candle.symbol (pushTrim buffer candle)
      { st1 with dispatched := st1.dispatched ++ [candle] }
    else st
  else
    match buffer.getLast? with
    | some last =>
      if last.openTime = candle.openTime then
        setBuffer st candle.symbol (buffer.dropLast ++ [candle])
      else if ¬ buffer.any (fun c => c.openTime = candle.openTime) then
        setBuffer st candle.symbol (pushTrim buffer candle)
      else st
    | none =>
      if ¬ buffer.any (fun c => c.openTime = candle.openTime) then
        setBuffer st candle.symbol (pushTrim buffer candle)
      else st

/-- Which of the two redundant data paths delivered a candle. -/
inductive DeliveryPath
  | push
  | poll
deriving DecidableEq

/-- Deliver one candle through the chosen path. -/
def deliver (st : BinanceService) : DeliveryPath × Candle → BinanceService
  | (DeliveryPath.push, candle) => handleKlineMessage st candle
  | (DeliveryPath.poll, candle) => pollHandleCandle st candle

/-- Deliver a sequence of candles through their respective paths. -/
def deliverAll (st : BinanceService) (ds : List (DeliveryPath × Candle)) : BinanceService :=
  ds.foldl deliver st

/-- Number of candles with the given `openTime` in a buffer. -/
def countOpenTime (buffer : List Candle) (t : Nat) : Nat :=
  (buffer.filter (fun c => c.openTime = t)).length

/-- `BinanceService.scheduleReconnect` (`binance.ts`): at the attempt cap
it logs `Max reconnect attempts reached. Service stopped.` and sets
`isRunning = false`; otherwise it increments the attempt counter and
arms the backoff timer. -/
def scheduleReconnect (st : BinanceService) : BinanceService :=
  if st.reconnectAttempts ≥ maxReconnectAttempts then { st with isRunning := false }
  else { st with reconnectAttempts := st.reconnectAttempts + 1 }

/-- The reconnect backoff delay
`Math.min(baseReconnectDelay * 2 ** (attempts - 1), 30000)` for the
given (already incremented) attempt number. -/
def reconnectDelay (attempts : Nat) : Nat :=
  min (baseReconnectDelay * 2 ^ (attempts - 1)) 30000

/-- Connection-level events of `BinanceService`: the `ws.on('open')` /
`ws.on('close')` handlers, one firing of the 60-second polling interval
(whose body starts with `if (!this.isRunning) { clearInterval(...);
return; }`), and the firing of the armed reconnect timer (whose callback
reconnects only `if (this.isRunning)`). -/
inductive FeedEvent
  | wsOpen
  | wsClose
  | pollTick
  | reconnectTimer
deriving DecidableEq

/-- One step of the connection bookkeeping under a feed event, from
`binance.ts`: a successful connection resets `reconnectAttempts` to 0; a
disconnect schedules a reconnect while running; a polling tick cancels
the polling interval when `isRunning` is false; the reconnect timer has
no state effect beyond the attempted connection. -/
def connStep (st : BinanceService) : FeedEvent → BinanceService
  | FeedEvent.wsOpen => { st with reconnectAttempts := 0 }
  | FeedEvent.wsClose => if st.isRunning then scheduleReconnect st else st
  | FeedEvent.pollTick => if ¬ st.isRunning then { st with pollingActive := false } else st
  | FeedEvent.reconnectTimer => st

/-- `LLMDecision` from `types/index.ts`. -/
inductive LLMDecision
  | APPROVE
  | REJECT
  | DELAY
deriving DecidableEq

/-- The parsed `LLMResponse` shape from `llm-filter.ts`; `Option` fields
model JSON fields that may be missing or of the wrong type. -/
structure LLMResponse where
  decision : Option LLMDecision
  confidence : Option ℚ
  reasoning : String
  delayMinutes : Option ℚ
deriving DecidableEq

/-- `LLMFilterResult` from `types/index.ts`, reduced to the fields the
pipeline branches on (`signalId`, free-text `reasoning`, `newsContext`
and `timestamp` dropped). -/
structure LLMFilterResult where
  decision : LLMDecision
  confidence : ℚ
  delayMinutes : Option ℚ
deriving DecidableEq

/-- The fallback result built in the `catch` block of
`LLMFilterService.evaluateSignal`: decision `APPROVE`, confidence 0.5. -/
def llmFailureResult : LLMFilterResult :=
  { decision := LLMDecision.APPROVE
    confidence := 1 / 2
    delayMinutes := none }

/-- The decision logic of `LLMFilterService.evaluateSignal`
(`llm-filter.ts`) as a function of the outcome of the OpenAI call:
`Except.error` covers every thrown error (network failure, empty
response, JSON parse failure); a parsed response failing the structure
validation (`!decision || typeof confidence !== 'number' ||
!reasoning`) throws and is caught by the same `catch`; a valid response
is returned with the confidence clamped to [0, 1].  On any caught error
the result is `llmFailureResult` (fail-open `APPROVE` at confidence
0.5). -/
def evaluateSignalResult (callOutcome : Except String LLMResponse) : LLMFilterResult :=
  match callOutcome with
  | Except.error _ => llmFailureResult
  | Except.ok response =>
    match response.decision, response.confidence with
    | some decision, some confidence =>
      if response.reasoning = "" then llmFailureResult
      else
        { decision
          confidence := max 0 (min 1 confidence)
          delayMinutes := response.delayMinutes }
    | _, _ => llmFailureResult

/-- The orchestrator's approval gate (`engine.ts`, step 10): a trade is
executed if and only if `llmDecision.decision === 'APPROVE'`. -/
def engineExecutesOn (result : LLMFilterResult) : Bool :=
  result.decision = LLMDecision.APPROVE

/-- C9: if the approval-gate (LLM) call in `evaluateSignal` fails with any
error, the returned result has decision `APPROVE` (fail-open) with
confidence 0.5, and the orchestrator's approval gate therefore lets the
signal proceed to trade execution. -/
theorem C9_llm_fail_open (e : String) :
    evaluateSignalResult (Except.error e) =
      { decision := LLMDecision.APPROVE, confidence := 1 / 2, delayMinutes := none } ∧
    engineExecutesOn (evaluateSignalResult (Except.error e)) = true := by
  exact ⟨rfl, rfl⟩

/-- C7 counterexample: from a live connection at the reconnect-attempt
cap with the polling interval armed, the `wsClose` handler stops the
whole service (`isRunning := false`), and the next polling tick then
cancels the polling interval — refuting the claim that the polling
fallback keeps running after the stream stops permanently. -/
def c7state : BinanceService :=
  { candleBuffers := fun _ => []
    dispatched := []
    isRunning := true
    reconnectAttempts := 10
    pollingActive := true }

/-- C7 counterexample theorem (see `c7state`). -/
theorem C7_counterexample :
    (connStep c7state FeedEvent.wsClose).isRunning = false ∧
    ((connStep (connStep c7state FeedEvent.wsClose) FeedEvent.pollTick).pollingActive = true →
      False) := by
  refine ⟨rfl, fun h => ?_⟩
  simp [connStep, scheduleReconnect, c7state, maxReconnectAttempts] at h

/-- C7 (amended): when the reconnect attempt count has reached its
maximum, the close handler stops the whole service for that run
(`isRunning := false`, so the stream never reconnects — but the polling
fallback then cancels itself at its next tick instead of continuing
independently); once stopped, no event restarts the run; and a
successful connection resets the attempt counter to zero. -/
theorem C7_reconnect_stop_amended :
    (∀ st : BinanceService, st.isRunning = true →
      st.reconnectAttempts ≥ maxReconnectAttempts →
      (connStep st FeedEvent.wsClose).isRunning = false) ∧
    (∀ (st : BinanceService) (e : FeedEvent), st.isRunning = false →
      (connStep st e).isRunning = false) ∧
    (∀ st : BinanceService, st.isRunning = false →
      (connStep st FeedEvent.pollTick).pollingActive = false) ∧
    (∀ st : BinanceService, (connStep st FeedEvent.wsOpen).reconnectAttempts = 0) := by
  refine ⟨?_, ?_, ?_, ?_⟩
  · intro st hrun hmax
    simp [connStep, scheduleReconnect, hrun, hmax]
  · intro st e hstop
    cases e <;> simp [connStep, scheduleReconnect, hstop]
  · intro st hstop
    simp [connStep, hstop]
  · intro st
    simp [connStep]

/-- C7 witness: the amended theorem applied at a concrete stopped state
and at `c7state`-like concrete inputs. -/
theorem C7_reconnect_stop_amended_witness :
    ((⟨fun _ => [], [], true, 10, true⟩ : BinanceService).isRunning = true ∧
      (⟨fun _ => [], [], true, 10, true⟩ : BinanceService).reconnectAttempts ≥
        maxReconnectAttempts ∧
      (connStep ⟨fun _ => [], [], true, 10, true⟩ FeedEvent.wsClose).isRunning = false) ∧
    ((⟨fun _ => [], [], false, 3, true⟩ : BinanceService).isRunning = false ∧
      (connStep ⟨fun _ => [], [], false, 3, true⟩ FeedEvent.wsClose).isRunning = false) ∧
    ((connStep ⟨fun _ => [], [], false, 3, true⟩ FeedEvent.pollTick).pollingActive = false) ∧
    ((connStep ⟨fun _ => [], [], true, 7, true⟩ FeedEvent.wsOpen).reconnectAttempts = 0) := by
  refine ⟨⟨rfl, ?_, ?_⟩, ⟨rfl, ?_⟩, ?_, ?_⟩
  · decide
  · exact C7_reconnect_stop_amended.1 _ rfl (by decide)
  · exact C7_reconnect_stop_amended.2.1 _ FeedEvent.wsClose rfl
  · exact C7_reconnect_stop_amended.2.2.1 _ rfl
  · exact C7_reconnect_stop_amended.2.2.2 _

/-- C8 counterexample inputs: cooldown configured to 2 candles, and the
symbol's last signal recorded at the open time of the current candle
(zero elapsed candles). -/
def c8config : TradingConfig :=
  { initialCapital := 10000
    maxPositionPercent := 3 / 20
    maxOpenPositions := 12
    commissionRate := 1 / 1000
    cooldownCandles := 2
    riskPerTradePercent := 1 / 50
    trailingStopActivation := 1 / 125
    trailingStopDistance := 1 / 200 }

/-- C8 counterexample: strategy state with a last signal zero candles
ago. -/
def c8state : StrategyService :=
  { config := c8config
    lastSignalTime := [("BTCUSDT", 1000)] }

/-- C8 counterexample: the current candle has the very open time recorded
in `lastSignalTime`. -/
def c8candles : List Candle :=
  [{ symbol := "BTCUSDT"
     interval := "15m"
     openTime := 1000
     closeTime := 1900
     openPrice := 100
     highPrice := 101
     lowPrice := 99
     closePrice := 100
     volume := 10
     isClosed := true }]

/-- C8 counterexample: an indicator snapshot on which the RSI-reversal
detector fires. -/
def c8indicators : Indicators :=
  { ema9 := 100
    ema21 := 100
    ema50 := 100
    rsi14 := 30
    atr14 := 2
    atrPercent := 2
    adx14 := 10
    volumeSma20 := 10
    volumeRatio := 1
    lastSwingHigh := 101
    lastSwingLow := 99 }

/-- C8 counterexample: although `cooldownCandles = 2` and zero candles
have elapsed since the symbol's last recorded signal (the last signal's
open time equals the current candle's open time), `evaluate` still
produces a signal — refuting the claim that no signal is produced while
the cooldown has not elapsed. -/
theorem C8_counterexample :
    c8state.config.cooldownCandles = 2 ∧
    getAssoc c8state.lastSignalTime "BTCUSDT" = some 1000 ∧
    (lastCandle c8candles).openTime = 1000 ∧
    ((evaluate c8state "BTCUSDT" c8candles c8indicators
        { decision := MarketDecision.TRADE_ALLOWED }).1).isSome = true := by
  refine ⟨rfl, rfl, rfl, ?_⟩
  decide

/-- C8 (amended): `evaluate` does invoke the cooldown gate `canTrade`
once, after the regime gate and before any detector runs, but `canTrade`
unconditionally returns `true` without reading `lastSignalTime` or
`config.cooldownCandles`; consequently the produced signal is completely
independent of the strategy state (cooldown configuration and per-symbol
last-signal times), and only the DANGER regime gate can suppress the
detector chain. -/
theorem C8_cooldown_gate_amended :
    (∀ (s : StrategyService) (symbol : String) (candles : List Candle),
      canTrade s symbol candles = true) ∧
    (∀ (s1 s2 : StrategyService) (symbol : String) (candles : List Candle)
      (indicators : Indicators) (regime : RegimeState),
      (evaluate s1 symbol candles indicators regime).1 =
        (evaluate s2 symbol candles indicators regime).1) ∧
    (∀ (s : StrategyService) (symbol : String) (candles : List Candle)
      (indicators : Indicators),
      (evaluate s symbol candles indicators { decision := MarketDecision.DANGER }).1 =
        none) := by
  refine ⟨fun _ _ _ => rfl, ?_, ?_⟩
  · intro s1 s2 symbol candles indicators regime
    by_cases hd : regime.decision = MarketDecision.DANGER
    · simp [evaluate, hd]
    · cases hchain :
        (checkEMACrossover symbol candles indicators <|>
          checkRSIReversal symbol candles indicators <|>
          checkMomentumBreakout symbol candles indicators <|>
          checkStructureBreak symbol candles indicators <|>
          checkEMABounce symbol candles indicators <|>
          checkMeanReversion symbol candles indicators <|>
          checkCandleTrend symbol candles indicators <|>
          checkQuickScalp symbol candles indicators) <;>
        simp [evaluate, hd, canTrade, hchain]
  · intro s symbol candles indicators
    simp [evaluate]

/-- One `updateTrailingStop` step never lowers the stop of a LONG
position. -/
lemma updateTrailingStop_long_mono (config : TradingConfig) (position : Position)
    (price : ℚ) (ts : TrailingStopState) (hdir : position.direction = PosDirection.LONG) :
    ts.currentStop ≤ (updateTrailingStop config position price ts).currentStop := by
  unfold updateTrailingStop
  simp only [hdir, if_true, reduceIte]
  split_ifs <;> first | rfl | (apply le_of_lt; assumption) | exact le_refl _

/-- One `updateTrailingStop` step never raises the stop of a SHORT
position. -/
lemma updateTrailingStop_short_mono (config : TradingConfig) (position : Position)
    (price : ℚ) (ts : TrailingStopState) (hdir : position.direction = PosDirection.SHORT) :
    (updateTrailingStop config position price ts).currentStop ≤ ts.currentStop := by
  unfold updateTrailingStop
  simp only [hdir, reduceCtorEq, reduceIte]
  split_ifs <;> first | rfl | (apply le_of_lt; assumption) | exact le_refl _

/-- Folding `updateTrailingStop` over any price sequence never lowers the
stop of a LONG position. -/
lemma runTrailingUpdates_long_mono (config : TradingConfig) (position : Position)
    (prices : List ℚ) (ts : TrailingStopState)
    (hdir : position.direction = PosDirection.LONG) :
    ts.currentStop ≤ (runTrailingUpdates config position ts prices).currentStop := by
  induction prices generalizing ts with
  | nil => simp [runTrailingUpdates]
  | cons price rest ih =>
    calc ts.currentStop
        ≤ (updateTrailingStop config position price ts).currentStop :=
          updateTrailingStop_long_mono config position price ts hdir
      _ ≤ (runTrailingUpdates config position
            (updateTrailingStop config position price ts) rest).currentStop := ih _
      _ = (runTrailingUpdates config position ts (price :: rest)).currentStop := rfl

/-- Folding `updateTrailingStop` over any price sequence never raises the
stop of a SHORT position. -/
lemma runTrailingUpdates_short_mono (config : TradingConfig) (position : Position)
    (prices : List ℚ) (ts : TrailingStopState)
    (hdir : position.direction = PosDirection.SHORT) :
    (runTrailingUpdates config position ts prices).currentStop ≤ ts.currentStop := by
  induction prices generalizing ts with
  | nil => simp [runTrailingUpdates]
  | cons price rest ih =>
    calc (runTrailingUpdates config position ts (price :: rest)).currentStop
        = (runTrailingUpdates config position
            (updateTrailingStop config position price ts) rest).currentStop := rfl
      _ ≤ (updateTrailingStop config position price ts).currentStop := ih _
      _ ≤ ts.currentStop := updateTrailingStop_short_mono config position price ts hdir

/-- An active LONG trailing stop ignores a candidate stop that does not
improve on the existing one. -/
lemma updateTrailingStop_long_no_loosen (config : TradingConfig) (position : Position)
    (price : ℚ) (ts : TrailingStopState) (hdir : position.direction = PosDirection.LONG)
    (hact : ts.isActive = true) (hhigh : price > ts.highestPrice)
    (hcand : price * (1 - config.trailingStopDistance) ≤ ts.currentStop) :
    (updateTrailingStop config position price ts).currentStop = ts.currentStop := by
  simp [updateTrailingStop, hdir, hact, hhigh, not_lt.mpr hcand]

/-- An active SHORT trailing stop ignores a candidate stop that does not
improve on the existing one. -/
lemma updateTrailingStop_short_no_loosen (config : TradingConfig) (position : Position)
    (price : ℚ) (ts : TrailingStopState) (hdir : position.direction = PosDirection.SHORT)
    (hact : ts.isActive = true) (hlow : price < ts.lowestPrice)
    (hcand : ts.currentStop ≤ price * (1 + config.trailingStopDistance)) :
    (updateTrailingStop config position price ts).currentStop = ts.currentStop := by
  simp [updateTrailingStop, hdir, hact, hlow, not_lt.mpr hcand]

/-- C2: the trailing-stop ratchet.  For a LONG position the recorded stop
is non-decreasing under every single `updateTrailingStop` step and under
any sequence of price updates; for a SHORT position it is
non-increasing; and while active, a candidate stop computed from a new
extreme favorable price is adopted only when it improves on the existing
stop (a non-improving candidate leaves the stop unchanged). -/
theorem C2_trailing_stop_ratchet (config : TradingConfig) (position : Position)
    (ts : TrailingStopState) :
    (position.direction = PosDirection.LONG →
      (∀ price, ts.currentStop ≤ (updateTrailingStop config position price ts).currentStop) ∧
      (∀ prices, ts.currentStop ≤
        (runTrailingUpdates config position ts prices).currentStop) ∧
      (∀ price, ts.isActive = true → price > ts.highestPrice →
        price * (1 - config.trailingStopDistance) ≤ ts.currentStop →
        (updateTrailingStop config position price ts).currentStop = ts.currentStop)) ∧
    (position.direction = PosDirection.SHORT →
      (∀ price, (updateTrailingStop config position price ts).currentStop ≤ ts.currentStop) ∧
      (∀ prices, (runTrailingUpdates config position ts prices).currentStop ≤
        ts.currentStop) ∧
      (∀ price, ts.isActive = true → price < ts.lowestPrice →
        ts.currentStop ≤ price * (1 + config.trailingStopDistance) →
        (updateTrailingStop config position price ts).currentStop = ts.currentStop)) := by
  constructor
  · intro hdir
    exact ⟨fun price => updateTrailingStop_long_mono config position price ts hdir,
      fun prices => runTrailingUpdates_long_mono config position prices ts hdir,
      fun price hact hhigh hcand =>
        updateTrailingStop_long_no_loosen config position price ts hdir hact hhigh hcand⟩
  · intro hdir
    exact ⟨fun price => updateTrailingStop_short_mono config position price ts hdir,
      fun prices => runTrailingUpdates_short_mono config position prices ts hdir,
      fun price hact hlow hcand =>
        updateTrailingStop_short_no_loosen config position price ts hdir hact hlow hcand⟩

/-- Concrete config for the C2 witness. -/
def c2config : TradingConfig :=
  ⟨10000, 3 / 20, 12, 1 / 1000, 0, 1 / 50, 1 / 125, 1 / 200⟩

/-- Concrete LONG position for the C2 witness. -/
def c2posL : Position := ⟨1, "BTCUSDT", PosDirection.LONG, 100, 100, 1, 95, 110, 0, 0⟩

/-- Concrete SHORT position for the C2 witness. -/
def c2posS : Position := ⟨2, "ETHUSDT", PosDirection.SHORT, 100, 100, 1, 105, 90, 0, 0⟩

/-- Concrete active trailing state (LONG) for the C2 witness. -/
def c2tsL : TrailingStopState := ⟨true, 101, 101, 101, 102⟩

/-- Concrete active trailing state (SHORT) for the C2 witness. -/
def c2tsS : TrailingStopState := ⟨true, 99, 99, 99, 98⟩

/-- C2 witness: the ratchet theorem applied at concrete LONG and SHORT
positions, price sequences and non-improving candidates. -/
theorem C2_trailing_stop_ratchet_witness :
    (c2posL.direction = PosDirection.LONG ∧
      c2tsL.currentStop ≤ (updateTrailingStop c2config c2posL 102 c2tsL).currentStop ∧
      c2tsL.currentStop ≤
        (runTrailingUpdates c2config c2posL c2tsL [102, 104, 101]).currentStop ∧
      (updateTrailingStop c2config c2posL 102 c2tsL).currentStop = c2tsL.currentStop) ∧
    (c2posS.direction = PosDirection.SHORT ∧
      (updateTrailingStop c2config c2posS (197 / 2) c2tsS).currentStop ≤ c2tsS.currentStop ∧
      (runTrailingUpdates c2config c2posS c2tsS [99, 97, 98]).currentStop ≤
        c2tsS.currentStop ∧
      (updateTrailingStop c2config c2posS (197 / 2) c2tsS).currentStop = c2tsS.currentStop) := by
  refine ⟨⟨rfl, ?_, ?_, ?_⟩, rfl, ?_, ?_, ?_⟩
  · exact ((C2_trailing_stop_ratchet c2config c2posL c2tsL).1 rfl).1 102
  · exact ((C2_trailing_stop_ratchet c2config c2posL c2tsL).1 rfl).2.1 [102, 104, 101]
  · exact ((C2_trailing_stop_ratchet c2config c2posL c2tsL).1 rfl).2.2 102 rfl
      (by norm_num [c2tsL]) (by norm_num [c2tsL, c2config])
  · exact ((C2_trailing_stop_ratchet c2config c2posS c2tsS).2 rfl).1 (197 / 2)
  · exact ((C2_trailing_stop_ratchet c2config c2posS c2tsS).2 rfl).2.1 [99, 97, 98]
  · exact ((C2_trailing_stop_ratchet c2config c2posS c2tsS).2 rfl).2.2 (197 / 2) rfl
      (by norm_num [c2tsS]) (by norm_num [c2tsS, c2config])

/-- C3: exit conditions are evaluated in the fixed order take-profit,
then trailing stop (only if active), then static stop-loss, first match
winning; in particular a take-profit hit yields `take_profit` even when
an active trailing stop is simultaneously hit. -/
theorem C3_exit_priority (position : Position) (currentPrice : ℚ)
    (ts : TrailingStopState) :
    (position.direction = PosDirection.LONG →
      (currentPrice ≥ position.takeProfit →
        checkExitConditions position currentPrice ts = some TradeExitReason.take_profit) ∧
      (currentPrice < position.takeProfit → ts.isActive = true →
        currentPrice ≤ ts.currentStop →
        checkExitConditions position currentPrice ts = some TradeExitReason.trailing_stop) ∧
      (currentPrice < position.takeProfit →
        ¬ (ts.isActive = true ∧ currentPrice ≤ ts.currentStop) →
        currentPrice ≤ position.stopLoss →
        checkExitConditions position currentPrice ts = some TradeExitReason.stop_loss)) ∧
    (position.direction = PosDirection.SHORT →
      (currentPrice ≤ position.takeProfit →
        checkExitConditions position currentPrice ts = some TradeExitReason.take_profit) ∧
      (currentPrice > position.takeProfit → ts.isActive = true →
        currentPrice ≥ ts.currentStop →
        checkExitConditions position currentPrice ts = some TradeExitReason.trailing_stop) ∧
      (currentPrice > position.takeProfit →
        ¬ (ts.isActive = true ∧ currentPrice ≥ ts.currentStop) →
        currentPrice ≥ position.stopLoss →
        checkExitConditions position currentPrice ts = some TradeExitReason.stop_loss)) := by
  constructor
  · intro hdir
    refine ⟨?_, ?_, ?_⟩
    · intro htp
      simp [checkExitConditions, hdir, htp]
    · intro htp hact hstop
      simp [checkExitConditions, hdir, not_le.mpr htp, hact, hstop]
    · intro htp hno hsl
      simp [checkExitConditions, hdir, not_le.mpr htp, hno, hsl]
  · intro hdir
    refine ⟨?_, ?_, ?_⟩
    · intro htp
      simp [checkExitConditions, hdir, htp]
    · intro htp hact hstop
      simp [checkExitConditions, hdir, not_le.mpr htp, hact, hstop]
    · intro htp hno hsl
      simp [checkExitConditions, hdir, not_le.mpr htp, hno, hsl]

/-- Concrete LONG position for the C3 witness: take-profit 105, static
stop 95. -/
def c3pos : Position := ⟨3, "BTCUSDT", PosDirection.LONG, 100, 105, 1, 95, 105, 0, 0⟩

/-- Concrete active trailing state for the C3 witness, with the trailing
stop above the take-profit so price 105 hits both at once. -/
def c3ts : TrailingStopState := ⟨true, 103, 106, 0, 106⟩

/-- C3 witness: at price 105 both the take-profit (105 ≥ 105) and the
active trailing stop (105 ≤ 106) are simultaneously satisfied, and the
recorded exit reason is `take_profit`. -/
theorem C3_exit_priority_witness :
    (c3pos.direction = PosDirection.LONG ∧ (105 : ℚ) ≥ c3pos.takeProfit ∧
      c3ts.isActive = true ∧ (105 : ℚ) ≤ c3ts.currentStop) ∧
    checkExitConditions c3pos 105 c3ts = some TradeExitReason.take_profit := by
  refine ⟨⟨rfl, by norm_num [c3pos], rfl, by norm_num [c3ts]⟩, ?_⟩
  exact ((C3_exit_priority c3pos 105 c3ts).1 rfl).1 (by norm_num [c3pos])


/-- With a non-zero stop distance, the computed size is the minimum of the
risk quantity and the capped quantity. -/
lemma calculatePositionSize_eq_min (s : PortfolioService) (entryPrice stopLoss : ℚ)
    (hdist : |entryPrice - stopLoss| ≠ 0) :
    calculatePositionSize s entryPrice stopLoss =
      min (s.totalEquity * s.config.riskPerTradePercent / |entryPrice - stopLoss|)
        (s.totalEquity * s.config.maxPositionPercent / entryPrice) := by
  unfold calculatePositionSize
  rw [if_neg hdist]
  rcases le_or_lt (s.totalEquity * s.config.riskPerTradePercent / |entryPrice - stopLoss|)
      (s.totalEquity * s.config.maxPositionPercent / entryPrice) with hle | hlt
  · rw [if_neg (not_lt.mpr hle), min_eq_left hle]
  · rw [if_pos hlt, min_eq_right (le_of_lt hlt)]

/-- C4: position sizing.  (1) With a non-zero stop distance the computed
quantity is exactly the risk budget over the stop distance, capped at
the max-position notional over the entry price.  (2) With a positive
entry price and non-negative cap, the position notional at the entry
price never exceeds `totalEquity * maxPositionPercent`.  (3) A zero
computed size (in particular a zero stop distance, which forces size 0)
makes `openPosition` reject and leave the state unchanged.  (4) With
equity 10000 and risk-per-trade 2%, entry 100 and stop 98, the quantity
is `min 100 (100 * maxPositionPercent)` — 100 units unless the
max-position cap is smaller. -/
theorem C4_position_sizing :
    (∀ (s : PortfolioService) (entryPrice stopLoss : ℚ),
      |entryPrice - stopLoss| ≠ 0 →
      calculatePositionSize s entryPrice stopLoss =
        min (s.totalEquity * s.config.riskPerTradePercent / |entryPrice - stopLoss|)
          (s.totalEquity * s.config.maxPositionPercent / entryPrice)) ∧
    (∀ (s : PortfolioService) (entryPrice stopLoss : ℚ),
      0 < entryPrice → 0 ≤ s.totalEquity * s.config.maxPositionPercent →
      calculatePositionSize s entryPrice stopLoss * entryPrice ≤
        s.totalEquity * s.config.maxPositionPercent) ∧
    (∀ (s : PortfolioService) (signal : TradeSignal) (currentPrice : ℚ) (newId : Nat),
      calculatePositionSize s signal.entryPrice signal.stopLoss = 0 →
      openPosition s signal currentPrice newId = (none, s)) ∧
    (∀ cfg : TradingConfig, cfg.initialCapital = 10000 →
      cfg.riskPerTradePercent = 1 / 50 →
      calculatePositionSize (mkPortfolio cfg) 100 98 =
        min 100 (100 * cfg.maxPositionPercent)) := by
  refine ⟨calculatePositionSize_eq_min, ?_, ?_, ?_⟩
  · intro s entryPrice stopLoss hpos hcap
    simp only [calculatePositionSize]
    split_ifs with h1 h2
    · simpa using hcap
    · rw [div_mul_cancel₀ _ (ne_of_gt hpos)]
    · have h3 : s.totalEquity * s.config.riskPerTradePercent / |entryPrice - stopLoss| ≤
          s.totalEquity * s.config.maxPositionPercent / entryPrice := not_lt.mp h2
      calc s.totalEquity * s.config.riskPerTradePercent / |entryPrice - stopLoss| * entryPrice
          ≤ s.totalEquity * s.config.maxPositionPercent / entryPrice * entryPrice :=
            mul_le_mul_of_nonneg_right h3 (le_of_lt hpos)
        _ = s.totalEquity * s.config.maxPositionPercent :=
            div_mul_cancel₀ _ (ne_of_gt hpos)
  · intro s signal currentPrice newId hzero
    simp [openPosition, hzero]
  · intro cfg hcap hrisk
    rw [calculatePositionSize_eq_min (mkPortfolio cfg) 100 98 (by norm_num)]
    have hE : (mkPortfolio cfg).totalEquity = 10000 := hcap
    have hR : (mkPortfolio cfg).config.riskPerTradePercent = 1 / 50 := hrisk
    rw [hE, hR]
    have harg : (10000 : ℚ) * cfg.maxPositionPercent / 100 = 100 * cfg.maxPositionPercent := by
      ring
    show min (10000 * (1 / 50) / |(100 : ℚ) - 98|) (10000 * cfg.maxPositionPercent / 100) =
      min 100 (100 * cfg.maxPositionPercent)
    rw [harg]
    norm_num

/-- Concrete config for the C4 witness: capital 10000, risk 2%, max
position 15%. -/
def c4config : TradingConfig :=
  ⟨10000, 3 / 20, 12, 1 / 1000, 0, 1 / 50, 1 / 125, 1 / 200⟩

/-- Concrete freshly-constructed portfolio for the C4 witness. -/
def c4s : PortfolioService := mkPortfolio c4config

/-- Concrete zero-stop-distance signal for the C4 witness. -/
def c4sig : TradeSignal :=
  ⟨"BTCUSDT", 0, SignalDirection.LONG, SignalStrength.weak, 100, 100, 105, 1⟩

/-- C4 witness: the sizing theorem applied at equity 10000, risk 2%,
entry 100, stop 98 (and a zero-stop-distance rejection). -/
theorem C4_position_sizing_witness :
    (|(100 : ℚ) - 98| ≠ 0 ∧
      calculatePositionSize c4s 100 98 =
        min (c4s.totalEquity * c4s.config.riskPerTradePercent / |(100 : ℚ) - 98|)
          (c4s.totalEquity * c4s.config.maxPositionPercent / 100)) ∧
    ((0 : ℚ) < 100 ∧ 0 ≤ c4s.totalEquity * c4s.config.maxPositionPercent ∧
      calculatePositionSize c4s 100 98 * 100 ≤
        c4s.totalEquity * c4s.config.maxPositionPercent) ∧
    (calculatePositionSize c4s c4sig.entryPrice c4sig.stopLoss = 0 ∧
      openPosition c4s c4sig 100 7 = (none, c4s)) ∧
    (c4config.initialCapital = 10000 ∧ c4config.riskPerTradePercent = 1 / 50 ∧
      calculatePositionSize (mkPortfolio c4config) 100 98 =
        min 100 (100 * c4config.maxPositionPercent)) := by
  have hcap : (0 : ℚ) ≤ c4s.totalEquity * c4s.config.maxPositionPercent := by
    norm_num [c4s, mkPortfolio, c4config]
  have hzero : calculatePositionSize c4s c4sig.entryPrice c4sig.stopLoss = 0 := by
    norm_num [c4sig, calculatePositionSize]
  refine ⟨⟨by norm_num, ?_⟩, ⟨by norm_num, hcap, ?_⟩, ⟨hzero, ?_⟩, rfl, rfl, ?_⟩
  · exact C4_position_sizing.1 c4s 100 98 (by norm_num)
  · exact C4_position_sizing.2.1 c4s 100 98 (by norm_num) hcap
  · exact C4_position_sizing.2.2.1 c4s c4sig 100 7 hzero
  · exact C4_position_sizing.2.2.2 c4config rfl rfl

/-- C5: `closePosition` accounting.  When the position is found, the
returned closed trade carries gross P&L `(exit − entry) × quantity` for
LONG and `(entry − exit) × quantity` for SHORT, net P&L subtracting the
entry and exit commissions (each leg notional × commission rate), the
outcome classified by the sign of net P&L; cash is credited with the
exit notional minus the exit commission; the position is removed and the
closed trade appended. -/
theorem C5_closePosition_accounting (s : PortfolioService) (positionId : Nat)
    (exitPrice : ℚ) (exitReason : TradeExitReason) (position : Position)
    (hfind : s.positions.find? (fun p => p.id = positionId) = some position) :
    let positionValue := position.quantity * position.entryPrice
    let exitValue := position.quantity * exitPrice
    let grossPnL :=
      if position.direction = PosDirection.LONG then exitValue - positionValue
      else positionValue - exitValue
    let totalCommission :=
      positionValue * s.config.commissionRate + exitValue * s.config.commissionRate
    let netPnL := grossPnL - totalCommission
    ((closePosition s positionId exitPrice exitReason).1 = some
      { id := position.id
        symbol := position.symbol
        direction := position.direction
        entryPrice := position.entryPrice
        exitPrice := exitPrice
        quantity := position.quantity
        pnl := netPnL
        pnlPercent := netPnL / positionValue * 100
        commission := totalCommission
        outcome :=
          if netPnL > 0 then TradeOutcome.win
          else if netPnL < 0 then TradeOutcome.loss
          else TradeOutcome.breakeven
        exitReason := exitReason }) ∧
    (closePosition s positionId exitPrice exitReason).2.availableCash =
      s.availableCash + (exitValue - exitValue * s.config.commissionRate) ∧
    (closePosition s positionId exitPrice exitReason).2.positions =
      s.positions.filter (fun p => p.id ≠ positionId) ∧
    (∀ trade, (closePosition s positionId exitPrice exitReason).1 = some trade →
      (closePosition s positionId exitPrice exitReason).2.closedTrades =
        s.closedTrades ++ [trade]) := by
  refine ⟨?_, ?_, ?_, ?_⟩
  · simp only [closePosition, hfind]
  · simp only [closePosition, hfind]
  · simp only [closePosition, hfind]
  · intro trade ht
    simp only [closePosition, hfind] at ht ⊢
    rw [← Option.some.inj ht]

/-- Concrete config for the C5 witness: commission rate 0.1%. -/
def c5config : TradingConfig :=
  ⟨10000, 3 / 20, 12, 1 / 1000, 0, 1 / 50, 1 / 125, 1 / 200⟩

/-- Concrete LONG position for the C5 witness: entry 100, quantity 10. -/
def c5pos : Position := ⟨1, "BTCUSDT", PosDirection.LONG, 100, 100, 10, 95, 110, 0, 0⟩

/-- Concrete portfolio holding `c5pos` for the C5 witness. -/
def c5s : PortfolioService :=
  { config := c5config
    totalEquity := 10000
    availableCash := 9000
    positions := [c5pos]
    closedTrades := [] }

/-- C5 witness: closing the LONG entry-100 quantity-10 position at 110
with commission rate 0.1% yields net P&L 97.9 and outcome `win`, credits
cash with the exit notional minus exit commission, and moves the
position into the closed-trade log. -/
theorem C5_closePosition_accounting_witness :
    c5s.positions.find? (fun p => p.id = 1) = some c5pos ∧
    ((closePosition c5s 1 110 TradeExitReason.take_profit).1).map (fun t => t.pnl) =
      some (979 / 10) ∧
    ((closePosition c5s 1 110 TradeExitReason.take_profit).1).map (fun t => t.outcome) =
      some TradeOutcome.win ∧
    (closePosition c5s 1 110 TradeExitReason.take_profit).2.availableCash =
      c5s.availableCash +
        (c5pos.quantity * 110 - c5pos.quantity * 110 * c5s.config.commissionRate) ∧
    (closePosition c5s 1 110 TradeExitReason.take_profit).2.positions = [] := by
  have hfind : c5s.positions.find? (fun p => p.id = 1) = some c5pos := by
    simp [c5s, c5pos]
  obtain ⟨h1, h2, h3, _⟩ :=
    C5_closePosition_accounting c5s 1 110 TradeExitReason.take_profit c5pos hfind
  refine ⟨hfind, ?_, ?_, h2, ?_⟩
  · rw [h1]
    norm_num [c5pos, c5s, c5config]
  · rw [h1]
    norm_num [c5pos, c5s, c5config]
  · rw [h3]
    norm_num [c5s, c5pos]

/-- `updatePositions` re-establishes the portfolio identity by
construction. -/
lemma updatePositions_identity (s : PortfolioService) (prices : List (String × ℚ)) :
    PortfolioIdentity (updatePositions s prices) := by
  rfl

/-- A successful `closePosition` re-establishes the portfolio identity by
construction. -/
lemma closePosition_identity (s : PortfolioService) (positionId : Nat) (exitPrice : ℚ)
    (exitReason : TradeExitReason)
    (h : ((closePosition s positionId exitPrice exitReason).1).isSome = true) :
    PortfolioIdentity (closePosition s positionId exitPrice exitReason).2 := by
  unfold closePosition at h ⊢
  cases hfind : s.positions.find? (fun p => p.id = positionId) with
  | none => rw [hfind] at h; simp at h
  | some position => rfl

/-- A successful `openPosition` leaves `totalEquity` stale: the identity
left side falls short of `totalEquity` by exactly the entry
commission. -/
lemma openPosition_identity_gap (s : PortfolioService) (signal : TradeSignal)
    (currentPrice : ℚ) (newId : Nat) (position : Position)
    (hId : PortfolioIdentity s)
    (h : (openPosition s signal currentPrice newId).1 = some position) :
    (openPosition s signal currentPrice newId).2.availableCash +
      getPositionsValue (openPosition s signal currentPrice newId).2 =
    (openPosition s signal currentPrice newId).2.totalEquity -
      position.quantity * currentPrice * s.config.commissionRate := by
  unfold PortfolioIdentity at hId
  unfold openPosition at h ⊢
  by_cases hc1 : canOpenPosition s = true
  swap
  · simp [hc1] at h
  by_cases hc2 : signal.direction = SignalDirection.NEUTRAL
  · simp [hc1, hc2] at h
  by_cases hc3 : calculatePositionSize s signal.entryPrice signal.stopLoss = 0
  · simp [hc1, hc2, hc3] at h
  by_cases hc4 : s.availableCash <
      calculatePositionSize s signal.entryPrice signal.stopLoss * currentPrice +
        calculatePositionSize s signal.entryPrice signal.stopLoss * currentPrice *
          s.config.commissionRate
  · simp [hc1, hc2, hc3, hc4] at h
  simp only [hc1, hc2, hc3, hc4, not_true, not_false_iff, ite_true, ite_false, if_neg,
    if_pos, gt_iff_lt, not_false_eq_true, reduceIte, Bool.not_true, Bool.false_eq_true,
    decide_eq_true_eq] at h ⊢
  have hrec := (Option.some.inj h).symm
  subst hrec
  simp only [getPositionsValue, List.foldl_append, List.foldl_cons, List.foldl_nil]
  simp only [getPositionsValue] at hId
  ring_nf
  ring_nf at hId
  linarith [hId]

/-- A rejected `openPosition` leaves the state unchanged, hence preserves
the identity. -/
lemma openPosition_not_some_identity (s : PortfolioService) (signal : TradeSignal)
    (currentPrice : ℚ) (newId : Nat)
    (hId : PortfolioIdentity s)
    (h : (openPosition s signal currentPrice newId).1 = none) :
    PortfolioIdentity (openPosition s signal currentPrice newId).2 := by
  unfold openPosition at h ⊢
  by_cases hc1 : canOpenPosition s = true
  swap
  · simpa [hc1] using hId
  by_cases hc2 : signal.direction = SignalDirection.NEUTRAL
  · simpa [hc1, hc2] using hId
  by_cases hc3 : calculatePositionSize s signal.entryPrice signal.stopLoss = 0
  · simpa [hc1, hc2, hc3] using hId
  by_cases hc4 : s.availableCash <
      calculatePositionSize s signal.entryPrice signal.stopLoss * currentPrice +
        calculatePositionSize s signal.entryPrice signal.stopLoss * currentPrice *
          s.config.commissionRate
  · simpa [hc1, hc2, hc3, hc4] using hId
  · simp [hc1, hc2, hc3, hc4] at h

/-- C1 (amended): the identity `availableCash + Σ(quantity × currentPrice)
= totalEquity` holds exactly after every `updatePositions` and after
every successful `closePosition`, but `openPosition` does not recompute
`totalEquity`: immediately after a successful open (from a state
satisfying the identity) the left side falls short of `totalEquity` by
exactly the entry commission, so the identity holds after `openPosition`
only when the commission rate is zero. -/
theorem C1_portfolio_identity_amended :
    (∀ (s : PortfolioService) (prices : List (String × ℚ)),
      PortfolioIdentity (updatePositions s prices)) ∧
    (∀ (s : PortfolioService) (positionId : Nat) (exitPrice : ℚ)
      (exitReason : TradeExitReason),
      ((closePosition s positionId exitPrice exitReason).1).isSome = true →
      PortfolioIdentity (closePosition s positionId exitPrice exitReason).2) ∧
    (∀ (s : PortfolioService) (signal : TradeSignal) (currentPrice : ℚ) (newId : Nat)
      (position : Position),
      PortfolioIdentity s →
      (openPosition s signal currentPrice newId).1 = some position →
      (openPosition s signal currentPrice newId).2.availableCash +
        getPositionsValue (openPosition s signal currentPrice newId).2 =
      (openPosition s signal currentPrice newId).2.totalEquity -
        position.quantity * currentPrice * s.config.commissionRate) ∧
    (∀ (s : PortfolioService) (signal : TradeSignal) (currentPrice : ℚ) (newId : Nat),
      s.config.commissionRate = 0 → PortfolioIdentity s →
      PortfolioIdentity (openPosition s signal currentPrice newId).2) := by
  refine ⟨updatePositions_identity, closePosition_identity, openPosition_identity_gap, ?_⟩
  intro s signal currentPrice newId hrate hId
  cases h : (openPosition s signal currentPrice newId).1 with
  | none => exact openPosition_not_some_identity s signal currentPrice newId hId h
  | some position =>
    have hgap := openPosition_identity_gap s signal currentPrice newId position hId h
    unfold PortfolioIdentity
    rw [hgap, hrate]
    ring

/-- Concrete config for C1: commission 0.1%, risk 2%, max position 50%. -/
def c1config : TradingConfig :=
  ⟨10000, 1 / 2, 12, 1 / 1000, 0, 1 / 50, 1 / 125, 1 / 200⟩

/-- Concrete fresh portfolio for C1. -/
def c1port : PortfolioService := mkPortfolio c1config

/-- Concrete LONG signal for C1: entry 100, stop 98. -/
def c1sig : TradeSignal :=
  ⟨"BTCUSDT", 0, SignalDirection.LONG, SignalStrength.moderate, 100, 98, 106, 2⟩

/-- The position `openPosition c1port c1sig 100 1` opens: size 50 (capped
by the 50% max-position rule), entry commission 5. -/
def c1openedPos : Position :=
  ⟨1, "BTCUSDT", PosDirection.LONG, 100, 100, 50, 98, 106, -5, -(1 / 10)⟩

/-- Concrete open position for C1's close-identity instance. -/
def c1pos : Position := ⟨1, "BTCUSDT", PosDirection.LONG, 100, 100, 10, 95, 110, 0, 0⟩

/-- Concrete portfolio holding `c1pos` for C1's close-identity
instance. -/
def c1posState : PortfolioService :=
  { config := c1config
    totalEquity := 10000
    availableCash := 9000
    positions := [c1pos]
    closedTrades := [] }

/-- Zero-commission variant of `c1config` for C1's commission-free
conjunct. -/
def c1zeroPort : PortfolioService :=
  mkPortfolio ⟨10000, 1 / 2, 12, 0, 0, 1 / 50, 1 / 125, 1 / 200⟩

/-- C1 counterexample: opening a position from a fresh 10000-capital
portfolio (commission rate 0.1%) succeeds, yet immediately afterwards
`availableCash + Σ(quantity × currentPrice)` is 9995 while `totalEquity`
is still 10000 — the identity fails by the entry commission after the
mutation `openPosition`. -/
theorem C1_counterexample :
    ((openPosition c1port c1sig 100 1).1).isSome = true ∧
    ¬ PortfolioIdentity (openPosition c1port c1sig 100 1).2 := by
  have hopen : (openPosition c1port c1sig 100 1).1 = some c1openedPos := by
    norm_num [openPosition, canOpenPosition, calculatePositionSize, mkPortfolio,
      c1port, c1config, c1sig, c1openedPos]
    try rfl
  constructor
  · rw [hopen]
    rfl
  · intro hId
    unfold PortfolioIdentity at hId
    rw [show (openPosition c1port c1sig 100 1).2 =
        { config := c1config
          totalEquity := 10000
          availableCash := 4995
          positions := [c1openedPos]
          closedTrades := [] } by
      norm_num [openPosition, canOpenPosition, calculatePositionSize, mkPortfolio,
        c1port, c1config, c1sig, c1openedPos]
      try rfl] at hId
    norm_num [getPositionsValue, c1openedPos] at hId

/-- C1 witness: the amended theorem applied at concrete mark-to-market,
close, open (exhibiting the entry-commission gap) and zero-commission
inputs. -/
theorem C1_portfolio_identity_amended_witness :
    PortfolioIdentity (updatePositions c1port [("BTCUSDT", 110)]) ∧
    (((closePosition c1posState 1 110 TradeExitReason.take_profit).1).isSome = true ∧
      PortfolioIdentity (closePosition c1posState 1 110 TradeExitReason.take_profit).2) ∧
    (PortfolioIdentity c1port ∧
      (openPosition c1port c1sig 100 1).1 = some c1openedPos ∧
      (openPosition c1port c1sig 100 1).2.availableCash +
        getPositionsValue (openPosition c1port c1sig 100 1).2 =
      (openPosition c1port c1sig 100 1).2.totalEquity -
        c1openedPos.quantity * 100 * c1port.config.commissionRate) ∧
    (c1zeroPort.config.commissionRate = 0 ∧ PortfolioIdentity c1zeroPort ∧
      PortfolioIdentity (openPosition c1zeroPort c1sig 100 1).2) := by
  have hIdPort : PortfolioIdentity c1port := by
    norm_num [PortfolioIdentity, mkPortfolio, getPositionsValue, c1port, c1config]
  have hIdZero : PortfolioIdentity c1zeroPort := by
    norm_num [PortfolioIdentity, mkPortfolio, getPositionsValue, c1zeroPort]
  have hopen : (openPosition c1port c1sig 100 1).1 = some c1openedPos := by
    norm_num [openPosition, canOpenPosition, calculatePositionSize, mkPortfolio,
      c1port, c1config, c1sig, c1openedPos]
    try rfl
  have hclose : ((closePosition c1posState 1 110 TradeExitReason.take_profit).1).isSome =
      true := by
    norm_num [closePosition, c1posState, c1pos]
  refine ⟨C1_portfolio_identity_amended.1 c1port [("BTCUSDT", 110)],
    ⟨hclose, C1_portfolio_identity_amended.2.1 c1posState 1 110
      TradeExitReason.take_profit hclose⟩,
    ⟨hIdPort, hopen,
      C1_portfolio_identity_amended.2.2.1 c1port c1sig 100 1 c1openedPos hIdPort hopen⟩,
    rfl, hIdZero,
    C1_portfolio_identity_amended.2.2.2 c1zeroPort c1sig 100 1 rfl hIdZero⟩

/-- `findIdx?` finds nothing when no element satisfies the predicate. -/
lemma findIdx?_none_of_all (l : List Candle) (p : Candle → Bool)
    (h : ∀ x ∈ l, p x = false) : l.findIdx? p = none := by
  induction l with
  | nil => rfl
  | cons a rest ih =>
    rw [List.findIdx?_cons, h a (List.mem_cons_self a rest)]
    simpa using ih (fun x hx => h x (List.mem_cons_of_mem a hx))

/-- `findIdx?` finds something when some element satisfies the
predicate. -/
lemma findIdx?_isSome_of_mem (l : List Candle) (p : Candle → Bool) (x : Candle)
    (hx : x ∈ l) (hp : p x = true) : (l.findIdx? p).isNone = false := by
  induction l with
  | nil => cases hx
  | cons a rest ih =>
    rw [List.findIdx?_cons]
    by_cases ha : p a = true
    · rw [ha]
      rfl
    · rw [Bool.not_eq_true] at ha
      rw [ha]
      rcases List.mem_cons.mp hx with rfl | hmem
      · exact absurd hp (by simp [ha])
      · cases hrec : rest.findIdx? p with
        | none => rw [hrec] at ih; exact absurd (ih hmem) (by simp)
        | some i => simp [hrec]

/-- A buffer that overflows after a push was non-empty before it. -/
lemma length_pos_of_trim (l : List Candle) (c : Candle)
    (h : (l ++ [c]).length > bufferSize) : 1 ≤ l.length := by
  simp [bufferSize] at h
  omega

/-- The candle just pushed survives the ring-buffer trim. -/
lemma mem_pushTrim_self (l : List Candle) (c : Candle) : c ∈ pushTrim l c := by
  simp only [pushTrim]
  split_ifs with h
  · have h1 : 1 ≤ l.length := length_pos_of_trim l c h
    rw [List.drop_append_eq_append_drop]
    refine List.mem_append_right _ ?_
    rw [Nat.sub_eq_zero_of_le h1]
    exact List.mem_singleton_self c
  · exact List.mem_append_right l (List.mem_singleton_self c)

/-- Appending a candle with a fresh open time to a buffer free of that
open time leaves exactly one copy, also after the ring-buffer trim. -/
lemma countOpenTime_pushTrim (l : List Candle) (c : Candle) (t : Nat)
    (hl : ∀ x ∈ l, x.openTime ≠ t) (hc : c.openTime = t) :
    countOpenTime (pushTrim l c) t = 1 := by
  have hfilter : ∀ m : List Candle, (∀ x ∈ m, x.openTime ≠ t) →
      (m ++ [c]).filter (fun cd => cd.openTime = t) = [c] := by
    intro m hm
    rw [List.filter_append]
    have h1 : m.filter (fun cd => cd.openTime = t) = [] := by
      rw [List.filter_eq_nil]
      intro a ha
      simp [hm a ha]
    rw [h1]
    simp [hc]
  simp only [countOpenTime, pushTrim]
  split_ifs with h
  · have h1 : 1 ≤ l.length := length_pos_of_trim l c h
    rw [List.drop_append_eq_append_drop, Nat.sub_eq_zero_of_le h1, List.drop]
    rw [hfilter (l.drop 1) (fun x hx => hl x (List.mem_of_mem_drop hx))]
    rfl
  · rw [hfilter l hl]
    rfl

/-- Push path, first arrival: a closed candle whose open time is not in
the symbol's buffer is appended (with trim) and dispatched. -/
lemma handleKline_fresh (st : BinanceService) (c : Candle)
    (hc : c.isClosed = true)
    (h : ∀ cd ∈ st.candleBuffers c.symbol, cd.openTime ≠ c.openTime) :
    handleKlineMessage st c =
      { setBuffer st c.symbol (pushTrim (st.candleBuffers c.symbol) c) with
          dispatched := st.dispatched ++ [c] } := by
  have hidx : ((st.candleBuffers c.symbol).findIdx?
      (fun cd => cd.openTime = c.openTime)).isNone = true := by
    rw [findIdx?_none_of_all _ _ (fun x hx => by simp [h x hx])]
    rfl
  simp [handleKlineMessage, hc, hidx, setBuffer]

/-- Poll path, first arrival: a closed candle whose open time is not in
the symbol's buffer is appended (with trim) and dispatched. -/
lemma pollHandle_fresh (st : BinanceService) (c : Candle)
    (hc : c.isClosed = true)
    (h : ∀ cd ∈ st.candleBuffers c.symbol, cd.openTime ≠ c.openTime) :
    pollHandleCandle st c =
      { setBuffer st c.symbol (pushTrim (st.candleBuffers c.symbol) c) with
          dispatched := st.dispatched ++ [c] } := by
  have hany : (st.candleBuffers c.symbol).any (fun cd => cd.openTime = c.openTime) =
      false := by
    rw [List.any_eq_false]
    intro x hx
    simp [h x hx]
  simp [pollHandleCandle, hc, hany, setBuffer]

/-- Either path drops a closed candle whose open time is already present
in the symbol's buffer, leaving the state unchanged. -/
lemma deliver_dup (st : BinanceService) (path : DeliveryPath) (c : Candle)
    (hc : c.isClosed = true) (x : Candle) (hx : x ∈ st.candleBuffers c.symbol)
    (hxt : x.openTime = c.openTime) :
    deliver st (path, c) = st := by
  cases path
  · have hidx := findIdx?_isSome_of_mem (st.candleBuffers c.symbol)
      (fun cd => cd.openTime = c.openTime) x hx (by simp [hxt])
    simp [deliver, handleKlineMessage, hc, hidx]
  · have hany : (st.candleBuffers c.symbol).any (fun cd => cd.openTime = c.openTime) =
        true := by
      rw [List.any_eq_true]
      exact ⟨x, hx, by simp [hxt]⟩
    simp [deliver, pollHandleCandle, hc, hany]

/-- Repeated deliveries of a closed candle whose open time is already in
the buffer leave the state unchanged. -/
lemma deliverAll_dup (c : Candle) (paths : List DeliveryPath) (st : BinanceService)
    (hc : c.isClosed = true) (x : Candle) (hx : x ∈ st.candleBuffers c.symbol)
    (hxt : x.openTime = c.openTime) :
    deliverAll st (paths.map (fun p => (p, c))) = st := by
  induction paths generalizing st with
  | nil => rfl
  | cons p rest ih =>
    show deliverAll (deliver st (p, c)) (rest.map (fun p => (p, c))) = st
    rw [deliver_dup st p c hc x hx hxt]
    exact ih st hx

/-- C6: delivering the same closed candle (same symbol and open time)
any positive number of times, through any combination of the push and
poll paths, starting from a buffer not containing that open time,
results in exactly one copy in the symbol's buffer and exactly one
dispatch to the registered candle handlers; every later duplicate is
silently dropped. -/
theorem C6_candle_dedup (st : BinanceService) (c : Candle) (paths : List DeliveryPath)
    (hc : c.isClosed = true) (hne : paths ≠ [])
    (hfresh : ∀ cd ∈ st.candleBuffers c.symbol, cd.openTime ≠ c.openTime) :
    countOpenTime ((deliverAll st (paths.map (fun p => (p, c)))).candleBuffers c.symbol)
      c.openTime = 1 ∧
    (deliverAll st (paths.map (fun p => (p, c)))).dispatched = st.dispatched ++ [c] := by
  cases paths with
  | nil => exact absurd rfl hne
  | cons p rest =>
    have hstep : deliver st (p, c) =
        { setBuffer st c.symbol (pushTrim (st.candleBuffers c.symbol) c) with
            dispatched := st.dispatched ++ [c] } := by
      cases p
      · exact handleKline_fresh st c hc hfresh
      · exact pollHandle_fresh st c hc hfresh
    have hbuf : ({ setBuffer st c.symbol (pushTrim (st.candleBuffers c.symbol) c) with
        dispatched := st.dispatched ++ [c] } : BinanceService).candleBuffers c.symbol =
        pushTrim (st.candleBuffers c.symbol) c := by
      simp [setBuffer]
    have hrest : deliverAll
        ({ setBuffer st c.symbol (pushTrim (st.candleBuffers c.symbol) c) with
            dispatched := st.dispatched ++ [c] } : BinanceService)
        (rest.map (fun q => (q, c))) =
        { setBuffer st c.symbol (pushTrim (st.candleBuffers c.symbol) c) with
            dispatched := st.dispatched ++ [c] } := by
      refine deliverAll_dup c rest _ hc c ?_ rfl
      rw [hbuf]
      exact mem_pushTrim_self _ c
    show countOpenTime ((deliverAll (deliver st (p, c))
        (rest.map (fun q => (q, c)))).candleBuffers c.symbol) c.openTime = 1 ∧
      (deliverAll (deliver st (p, c)) (rest.map (fun q => (q, c)))).dispatched =
        st.dispatched ++ [c]
    rw [hstep, hrest]
    refine ⟨?_, rfl⟩
    rw [hbuf]
    exact countOpenTime_pushTrim _ c _ hfresh rfl

/-- Concrete feed state (empty buffers) for the C6 witness. -/
def c6state : BinanceService :=
  { candleBuffers := fun _ => []
    dispatched := []
    isRunning := true
    reconnectAttempts := 0
    pollingActive := true }

/-- Concrete closed candle for the C6 witness. -/
def c6candle : Candle :=
  { symbol := "BTCUSDT"
    interval := "15m"
    openTime := 1000
    closeTime := 1900
    openPrice := 100
    highPrice := 101
    lowPrice := 99
    closePrice := 100
    volume := 10
    isClosed := true }

/-- C6 witness: the dedup theorem applied to a delivery of the same
closed candle once through the push path and once through the poll
path. -/
theorem C6_candle_dedup_witness :
    c6candle.isClosed = true ∧
    ([DeliveryPath.push, DeliveryPath.poll] : List DeliveryPath) ≠ [] ∧
    (∀ cd ∈ c6state.candleBuffers c6candle.symbol, cd.openTime ≠ c6candle.openTime) ∧
    countOpenTime ((deliverAll c6state
        ([DeliveryPath.push, DeliveryPath.poll].map
          (fun p => (p, c6candle)))).candleBuffers c6candle.symbol)
      c6candle.openTime = 1 ∧
    (deliverAll c6state
        ([DeliveryPath.push, DeliveryPath.poll].map
          (fun p => (p, c6candle)))).dispatched =
      c6state.dispatched ++ [c6candle] := by
  have hfresh : ∀ cd ∈ c6state.candleBuffers c6candle.symbol,
      cd.openTime ≠ c6candle.openTime := by
    intro cd hcd
    simp [c6state] at hcd
  have h := C6_candle_dedup c6state c6candle [DeliveryPath.push, DeliveryPath.poll]
    rfl (by simp) hfresh
  exact ⟨rfl, by simp, hfresh, h.1, h.2⟩

/-- Well-formedness of a `TradingConfig` for the cash invariant:
non-negative capital, risk and cap fractions, and a commission rate in
[0, 1]. -/
def GoodConfig (config : TradingConfig) : Prop :=
  0 ≤ config.initialCapital ∧ 0 ≤ config.commissionRate ∧ config.commissionRate ≤ 1 ∧
  0 ≤ config.riskPerTradePercent ∧ 0 ≤ config.maxPositionPercent

/-- Well-formedness of one portfolio mutation: all prices supplied to
the operation are non-negative. -/
def WellFormedOp : PortfolioOp → Prop
  | PortfolioOp.openOp signal currentPrice _ => 0 ≤ signal.entryPrice ∧ 0 ≤ currentPrice
  | PortfolioOp.closeOp _ exitPrice _ => 0 ≤ exitPrice
  | PortfolioOp.updateOp prices => ∀ pr ∈ prices, 0 ≤ pr.2

/-- The inductive invariant behind the cash claim: cash and equity are
non-negative and every open position has non-negative quantity and
current price. -/
def NonnegState (s : PortfolioService) : Prop :=
  0 ≤ s.availableCash ∧ 0 ≤ s.totalEquity ∧
  ∀ p ∈ s.positions, 0 ≤ p.quantity ∧ 0 ≤ p.currentPrice

/-- The position-value accumulator stays non-negative over a list of
non-negative positions. -/
lemma foldl_posvalue_nonneg (l : List Position) (init : ℚ) (h0 : 0 ≤ init)
    (h : ∀ p ∈ l, 0 ≤ p.quantity ∧ 0 ≤ p.currentPrice) :
    0 ≤ l.foldl (fun sum pos => sum + pos.quantity * pos.currentPrice) init := by
  induction l generalizing init with
  | nil => simpa using h0
  | cons a rest ih =>
    have ha := h a (List.mem_cons_self a rest)
    exact ih (init + a.quantity * a.currentPrice)
      (add_nonneg h0 (mul_nonneg ha.1 ha.2))
      (fun p hp => h p (List.mem_cons_of_mem a hp))

/-- `getPositionsValue` is non-negative on non-negative positions. -/
lemma getPositionsValue_nonneg (s : PortfolioService)
    (h : ∀ p ∈ s.positions, 0 ≤ p.quantity ∧ 0 ≤ p.currentPrice) :
    0 ≤ getPositionsValue s :=
  foldl_posvalue_nonneg s.positions 0 le_rfl h

/-- The computed position size is non-negative under non-negative
equity, risk fraction, cap fraction and entry price. -/
lemma calculatePositionSize_nonneg (s : PortfolioService) (entryPrice stopLoss : ℚ)
    (hE : 0 ≤ s.totalEquity) (hr : 0 ≤ s.config.riskPerTradePercent)
    (hm : 0 ≤ s.config.maxPositionPercent) (he : 0 ≤ entryPrice) :
    0 ≤ calculatePositionSize s entryPrice stopLoss := by
  simp only [calculatePositionSize]
  split_ifs
  · exact le_rfl
  · exact div_nonneg (mul_nonneg hE hm) he
  · exact div_nonneg (mul_nonneg hE hr) (abs_nonneg _)

/-- `openPosition` never changes the configuration. -/
lemma openPosition_config (s : PortfolioService) (signal : TradeSignal)
    (currentPrice : ℚ) (newId : Nat) :
    ((openPosition s signal currentPrice newId).2).config = s.config := by
  simp only [openPosition]
  split_ifs <;> rfl

/-- `openPosition` preserves the non-negativity invariant: it deducts at
most the available cash (it rejects otherwise) and records a
non-negative quantity at a non-negative price. -/
lemma openPosition_nonneg (s : PortfolioService) (signal : TradeSignal)
    (currentPrice : ℚ) (newId : Nat) (hg : GoodConfig s.config) (hs : NonnegState s)
    (he : 0 ≤ signal.entryPrice) (hcp : 0 ≤ currentPrice) :
    NonnegState (openPosition s signal currentPrice newId).2 := by
  have hsize := calculatePositionSize_nonneg s signal.entryPrice signal.stopLoss
    hs.2.1 hg.2.2.2.1 hg.2.2.2.2 he
  simp only [openPosition]
  split_ifs <;>
    first
      | exact hs
      | (refine ⟨sub_nonneg.mpr (not_lt.mp (by assumption)), hs.2.1, ?_⟩
         intro p hp
         rcases List.mem_append.mp hp with hmem | hnew
         · exact hs.2.2 p hmem
         · rcases List.mem_singleton.mp hnew with rfl
           exact ⟨hsize, hcp⟩)

/-- `closePosition` never changes the configuration. -/
lemma closePosition_config (s : PortfolioService) (positionId : Nat) (exitPrice : ℚ)
    (exitReason : TradeExitReason) :
    ((closePosition s positionId exitPrice exitReason).2).config = s.config := by
  unfold closePosition
  cases hfind : s.positions.find? (fun p => p.id = positionId) <;> rfl

/-- `closePosition` preserves the non-negativity invariant: it only
credits cash (exit notional minus exit commission is non-negative when
the exit price is non-negative and the commission rate is at most
1). -/
lemma closePosition_nonneg (s : PortfolioService) (positionId : Nat) (exitPrice : ℚ)
    (exitReason : TradeExitReason) (hg : GoodConfig s.config) (hs : NonnegState s)
    (hep : 0 ≤ exitPrice) :
    NonnegState (closePosition s positionId exitPrice exitReason).2 := by
  unfold closePosition
  cases hfind : s.positions.find? (fun p => p.id = positionId) with
  | none => exact hs
  | some position =>
    have hmem : position ∈ s.positions := List.mem_of_find?_eq_some hfind
    have hq := hs.2.2 position hmem
    have hev : 0 ≤ position.quantity * exitPrice := mul_nonneg hq.1 hep
    have hcomm : position.quantity * exitPrice * s.config.commissionRate ≤
        position.quantity * exitPrice :=
      mul_le_of_le_one_right hev hg.2.2.1
    have hposs : ∀ p ∈ s.positions.filter (fun p => p.id ≠ positionId),
        0 ≤ p.quantity ∧ 0 ≤ p.currentPrice :=
      fun p hp => hs.2.2 p (List.mem_of_mem_filter hp)
    have hcash : 0 ≤ s.availableCash +
        (position.quantity * exitPrice -
          position.quantity * exitPrice * s.config.commissionRate) := by
      linarith [hs.1]
    refine ⟨hcash, ?_, hposs⟩
    exact add_nonneg hcash
      (foldl_posvalue_nonneg (s.positions.filter (fun p => p.id ≠ positionId)) 0
        le_rfl hposs)

/-- A successful price lookup returns a pair of the price list. -/
lemma lookupPrice_mem (prices : List (String × ℚ)) (symbol : String) (v : ℚ)
    (h : lookupPrice prices symbol = some v) : (symbol, v) ∈ prices := by
  induction prices with
  | nil => cases h
  | cons pr rest ih =>
    rw [lookupPrice] at h
    split_ifs at h with hk
    · obtain rfl := Option.some.inj h
      rw [← hk]
      exact List.mem_cons_self pr rest
    · exact List.mem_cons_of_mem pr (ih h)

/-- Mark-to-market of one position preserves non-negative quantity and
price when the supplied prices are non-negative. -/
lemma updateOnePosition_nonneg (commissionRate : ℚ) (prices : List (String × ℚ))
    (position : Position) (hp : 0 ≤ position.quantity ∧ 0 ≤ position.currentPrice)
    (hpr : ∀ pr ∈ prices, 0 ≤ pr.2) :
    0 ≤ (updateOnePosition commissionRate prices position).quantity ∧
    0 ≤ (updateOnePosition commissionRate prices position).currentPrice := by
  unfold updateOnePosition
  cases hl : lookupPrice prices position.symbol with
  | none => exact hp
  | some currentPrice =>
    dsimp only
    split_ifs with hz
    · exact hp
    all_goals
      exact ⟨hp.1, hpr (position.symbol, currentPrice) (lookupPrice_mem prices _ _ hl)⟩

/-- `updatePositions` preserves the non-negativity invariant. -/
lemma updatePositions_nonneg (s : PortfolioService) (prices : List (String × ℚ))
    (hs : NonnegState s) (hpr : ∀ pr ∈ prices, 0 ≤ pr.2) :
    NonnegState (updatePositions s prices) := by
  have hpos : ∀ p ∈ s.positions.map (updateOnePosition s.config.commissionRate prices),
      0 ≤ p.quantity ∧ 0 ≤ p.currentPrice := by
    intro p hp
    rcases List.mem_map.mp hp with ⟨q, hq, rfl⟩
    exact updateOnePosition_nonneg s.config.commissionRate prices q (hs.2.2 q hq) hpr
  refine ⟨hs.1, ?_, hpos⟩
  exact add_nonneg hs.1
    (foldl_posvalue_nonneg (s.positions.map (updateOnePosition s.config.commissionRate prices))
      0 le_rfl hpos)

/-- No portfolio mutation changes the configuration. -/
lemma applyOp_config (s : PortfolioService) (op : PortfolioOp) :
    (applyOp s op).config = s.config := by
  cases op with
  | openOp signal currentPrice newId => exact openPosition_config s signal currentPrice newId
  | closeOp positionId exitPrice exitReason =>
      exact closePosition_config s positionId exitPrice exitReason
  | updateOp prices => rfl

/-- Every well-formed portfolio mutation preserves the non-negativity
invariant. -/
lemma applyOp_nonneg (s : PortfolioService) (op : PortfolioOp)
    (hg : GoodConfig s.config) (hs : NonnegState s) (hop : WellFormedOp op) :
    NonnegState (applyOp s op) := by
  cases op with
  | openOp signal currentPrice newId =>
      exact openPosition_nonneg s signal currentPrice newId hg hs hop.1 hop.2
  | closeOp positionId exitPrice exitReason =>
      exact closePosition_nonneg s positionId exitPrice exitReason hg hs hop
  | updateOp prices => exact updatePositions_nonneg s prices hs hop

/-- A sequence of well-formed mutations preserves the non-negativity
invariant. -/
lemma runOps_nonneg (ops : List PortfolioOp) (s : PortfolioService)
    (hg : GoodConfig s.config) (hs : NonnegState s)
    (hops : ∀ op ∈ ops, WellFormedOp op) : NonnegState (runOps s ops) := by
  induction ops generalizing s with
  | nil => exact hs
  | cons op rest ih =>
    show NonnegState (runOps (applyOp s op) rest)
    refine ih (applyOp s op) ?_ ?_ (fun o ho => hops o (List.mem_cons_of_mem op ho))
    · rw [applyOp_config]
      exact hg
    · exact applyOp_nonneg s op hg hs (hops op (List.mem_cons_self op rest))

/-- C10: `availableCash` is never negative.  Starting from
`initialCapital` under a well-formed configuration, every sequence of
well-formed `openPosition` / `updatePositions` / `closePosition`
mutations keeps the available cash non-negative: an open rejects any
trade whose notional plus entry commission exceeds the cash, and a close
only credits cash. -/
theorem C10_cash_nonneg (config : TradingConfig) (ops : List PortfolioOp)
    (hg : GoodConfig config) (hops : ∀ op ∈ ops, WellFormedOp op) :
    0 ≤ (runOps (mkPortfolio config) ops).availableCash := by
  refine (runOps_nonneg ops (mkPortfolio config) hg ⟨hg.1, hg.1, ?_⟩ hops).1
  intro p hp
  cases hp

/-- Concrete config for the C10 witness. -/
def c10config : TradingConfig :=
  ⟨10000, 3 / 20, 12, 1 / 1000, 0, 1 / 50, 1 / 125, 1 / 200⟩

/-- Concrete LONG signal for the C10 witness. -/
def c10sig : TradeSignal :=
  ⟨"BTCUSDT", 0, SignalDirection.LONG, SignalStrength.moderate, 100, 98, 106, 2⟩

/-- Concrete mutation sequence for the C10 witness: open, mark to market,
close. -/
def c10ops : List PortfolioOp :=
  [PortfolioOp.openOp c10sig 100 1,
   PortfolioOp.updateOp [("BTCUSDT", 110)],
   PortfolioOp.closeOp 1 110 TradeExitReason.take_profit]

/-- C10 witness: the cash-non-negativity theorem applied to a concrete
open / update / close run from a 10000-capital configuration. -/
theorem C10_cash_nonneg_witness :
    GoodConfig c10config ∧ (∀ op ∈ c10ops, WellFormedOp op) ∧
    0 ≤ (runOps (mkPortfolio c10config) c10ops).availableCash := by
  have hg : GoodConfig c10config := by
    refine ⟨?_, ?_, ?_, ?_, ?_⟩ <;> norm_num [c10config]
  have hops : ∀ op ∈ c10ops, WellFormedOp op := by
    intro op hop
    simp only [c10ops, List.mem_cons, List.not_mem_nil, or_false] at hop
    rcases hop with rfl | rfl | rfl
    · exact ⟨by norm_num [c10sig], by norm_num⟩
    · intro pr hpr
      simp only [List.mem_singleton] at hpr
      subst hpr
      norm_num
    · show (0 : ℚ) ≤ 110
      norm_num
  exact ⟨hg, hops, C10_cash_nonneg c10config c10ops hg hops⟩
